import Mathlib

/-!
# BambuFilter fan controller: embedding of `firmware/src/main.cpp`

The firmware is a single translation unit.  This development embeds

* the arithmetic of the PWM helpers (`percentToDuty`, `invertDuty`), including the
  single-precision computations the source performs (`100.0f * v / DUTY_MAX`, ...),
* the command grammar (`tryParseInt`, `tryParseJsonPercent`, `parseSpeedCommand`),
* the speed controller and the MQTT session code it calls (`handleFanSpeed`,
  `ensureMqtt`, `publishStateFromDuty`) together with the run loop (`loop`),

as executable Lean definitions, and proves properties of them.

Conventions.  C `int`/`long` values are `Int` (both are 32 bits wide on the ESP32
targets; the only place where a value can leave that range, `strtol`, saturates as
`strtol` does).  `unsigned long` millisecond counters are `Nat` reduced modulo `2^32`.
C strings and Arduino `String`s are `List Char` (one `Char` per byte, no NUL inside).
`float`/`double` values are modelled exactly, as dyadic rationals rounded to nearest,
ties to even, after every operation.
-/

namespace BambuFilter

/-! ## Binary floating point -/

/-- Number of binary digits of `n`; the first argument bounds the recursion and `n`
itself is always enough. -/
def bitLen : Nat → Nat → Nat
  | 0, _ => 0
  | f + 1, n => if n = 0 then 0 else bitLen f (n / 2) + 1

/-- A floating-point datum: the finite value `(-1)^neg * m * 2^e`, or an infinity.
NaN is not represented: none of the embedded computations can produce one. -/
inductive Flt where
  | fin (neg : Bool) (m : Nat) (e : Int)
  | inf (neg : Bool)
deriving DecidableEq, Repr

/-- A binary interchange format: precision in bits, exponent of the least
significant bit of the subnormals, and exponent of the largest binade. -/
structure Fmt where
  prec : Nat
  emin : Int
  emax : Int
deriving DecidableEq, Repr

/-- IEEE 754 binary32, the C `float`. -/
def binary32 : Fmt := { prec := 24, emin := -149, emax := 127 }

/-- IEEE 754 binary64, the C `double`. -/
def binary64 : Fmt := { prec := 53, emin := -1074, emax := 1023 }

/-- Nearest integer to `q + r / d` (with `r < d`), ties to the even one. -/
def roundNE (q r d : Nat) : Nat :=
  if 2 * r < d then q
  else if d < 2 * r then q + 1
  else if q % 2 = 0 then q else q + 1

/-- The fraction `n / d` divided by `2^e`, as a numerator and a denominator. -/
def scaleBy (n d : Nat) (e : Int) : Nat × Nat :=
  if 0 ≤ e then (n, d * 2 ^ e.toNat) else (n * 2 ^ (-e).toNat, d)

/-- Round the non-negative rational `n / d` (`d > 0`) to the format `f`, to nearest,
ties to even, with gradual underflow and overflow to infinity. -/
def Fmt.round (f : Fmt) (neg : Bool) (n d : Nat) : Flt :=
  if n = 0 then .fin neg 0 0
  else
    let e0 : Int := (bitLen n n : Int) - (bitLen d d : Int) - (f.prec : Int)
    let e1 : Int :=
      if 2 ^ f.prec ≤ (scaleBy n d e0).1 / (scaleBy n d e0).2 then e0 + 1 else e0
    let e : Int := max e1 f.emin
    let a := (scaleBy n d e).1
    let b := (scaleBy n d e).2
    let m := roundNE (a / b) (a % b) b
    if 0 ≤ e ∧ 2 ^ (f.emax + 1).toNat ≤ m * 2 ^ e.toNat then .inf neg
    else .fin neg m e

/-- Sign bit of a datum. -/
def Flt.isNeg : Flt → Bool
  | .fin s _ _ => s
  | .inf s => s

/-- Conversion `int → float`. -/
def Flt.ofInt (i : Int) : Flt :=
  binary32.round (decide (i < 0)) i.natAbs 1

/-- Conversion to the format `f` (used for `double → float`). -/
def Flt.narrow (f : Fmt) : Flt → Flt
  | .fin s m e => f.round s (scaleBy m 1 (-e)).1 (scaleBy m 1 (-e)).2
  | .inf s => .inf s

/-- Single-precision product. -/
def Flt.mul : Flt → Flt → Flt
  | .fin s1 m1 e1, .fin s2 m2 e2 =>
    binary32.round (s1 != s2) (scaleBy (m1 * m2) 1 (-(e1 + e2))).1
      (scaleBy (m1 * m2) 1 (-(e1 + e2))).2
  | a, b => .inf (a.isNeg != b.isNeg)

/-- Single-precision quotient.  Every divisor in the source is a non-zero constant. -/
def Flt.div : Flt → Flt → Flt
  | .fin s1 m1 e1, .fin s2 m2 e2 =>
    if m2 = 0 then .inf (s1 != s2)
    else binary32.round (s1 != s2) (scaleBy m1 m2 (e2 - e1)).1 (scaleBy m1 m2 (e2 - e1)).2
  | .inf s1, b => .inf (s1 != b.isNeg)
  | .fin s1 _ _, .inf s2 => .fin (s1 != s2) 0 0

/-- Smallest `int`. -/
def INT_MIN : Int := -2147483648

/-- Largest `int`. -/
def INT_MAX : Int := 2147483647

/-- The Arduino `constrain(amt, low, high)` macro. -/
def constrain (amt low high : Int) : Int :=
  if amt < low then low else if amt > high then high else amt

/-- The expression `(int)round(x)`: `round` rounds half away from zero; the
conversion to `int` of a value outside the `int` range saturates (as the
conversion routines of the target do). -/
def roundToInt : Flt → Int
  | .inf s => if s then INT_MIN else INT_MAX
  | .fin s m e =>
    let mag : Nat :=
      if 0 ≤ e then m * 2 ^ e.toNat
      else (2 * m + 2 ^ (-e).toNat) / 2 ^ ((-e).toNat + 1)
    constrain (if s then -(mag : Int) else (mag : Int)) INT_MIN INT_MAX

/-! ## PWM helpers -/

/-- The constant `PWM_RES_BITS`. -/
def PWM_RES_BITS : Nat := 10

/-- The constant `(1 << PWM_RES_BITS) - 1`, named `DUTY_MAX` where the source names it. -/
def DUTY_MAX : Int := (2 : Int) ^ PWM_RES_BITS - 1

/-- The constant `PCT_MIN_START`. -/
def PCT_MIN_START : Int := 25

/-- The constant `PCT_MIN_RUN`. -/
def PCT_MIN_RUN : Int := 15

/-- The function `percentToDuty`. -/
def percentToDuty (pct : Int) : Int :=
  let pct := constrain pct 0 100
  let pct := if pct > 0 ∧ pct < PCT_MIN_RUN then PCT_MIN_RUN else pct
  let duty := roundToInt (((Flt.ofInt pct).div (Flt.ofInt 100)).mul (Flt.ofInt DUTY_MAX))
  constrain duty 0 DUTY_MAX

/-- The function `invertDuty`. -/
def invertDuty (duty : Int) : Int :=
  DUTY_MAX - constrain duty 0 DUTY_MAX

/-- The expression `(int)round(100.0f * v / DUTY_MAX)`, which the source uses to turn
a duty into a percent (for `currentPercent` and for raw commands). -/
def dutyToPercent (v : Int) : Int :=
  roundToInt (((Flt.ofInt 100).mul (Flt.ofInt v)).div (Flt.ofInt DUTY_MAX))

/-! ## Characters and strings -/

/-- The C `isspace` (in the "C" locale). -/
def isspace (c : Char) : Bool :=
  c == ' ' || c == '\t' || c == '\n' || c == '\x0b' || c == '\x0c' || c == '\r'

/-- The C `isdigit`. -/
def isdigit (c : Char) : Bool :=
  '0' ≤ c && c ≤ '9'

/-- The C `tolower` on the letters the source compares with. -/
def tolower (c : Char) : Char :=
  if 'A' ≤ c && c ≤ 'Z' then Char.ofNat (c.toNat + 32) else c

/-- Value of a run of decimal digits. -/
def natOfDigits (ds : List Char) : Nat :=
  ds.foldl (fun acc c => 10 * acc + (c.toNat - '0'.toNat)) 0

/-- The method `String::trim`: drop the white space at both ends. -/
def trim (s : List Char) : List Char :=
  ((s.dropWhile isspace).reverse.dropWhile isspace).reverse

/-- The method `String::indexOf(const String&)`: position of the first occurrence. -/
def indexOfStr (pat : List Char) : List Char → Option Nat
  | [] => none
  | c :: t =>
    if pat.isPrefixOf (c :: t) then some 0 else (indexOfStr pat t).map (· + 1)

/-- Position of the first `ch` in a string (`strchr`). -/
def findChar (ch : Char) : List Char → Option Nat
  | [] => none
  | c :: t => if c = ch then some 0 else (findChar ch t).map (· + 1)

/-- The method `String::indexOf(char, fromIndex)`. -/
def indexOfCharFrom (s : List Char) (ch : Char) (fromIndex : Nat) : Option Nat :=
  (findChar ch (s.drop fromIndex)).map (· + fromIndex)

/-- Smallest `long` (32 bits on the target). -/
def LONG_MIN : Int := -2147483648

/-- Largest `long`. -/
def LONG_MAX : Int := 2147483647

/-- The C `strtol(s, &endp, 10)`: skips white space, reads an optional sign and the
longest run of digits, saturating at the `long` bounds.  Yields the value and the
unread rest (`endp`), or `none` when no digit was read (`endp == s`). -/
def strtol (s : List Char) : Option (Int × List Char) :=
  let s1 := s.dropWhile isspace
  let neg := s1.head? == some '-'
  let s2 := if s1.head? == some '-' || s1.head? == some '+' then s1.tail else s1
  let ds := s2.takeWhile isdigit
  if ds.isEmpty then none
  else
    let v : Int := natOfDigits ds
    some (constrain (if neg then -v else v) LONG_MIN LONG_MAX, s2.dropWhile isdigit)

/-- The method `String::toInt` (`atol`): the `strtol` value, 0 without a digit. -/
def toInt (s : List Char) : Int :=
  match strtol s with
  | some (v, _) => v
  | none => 0

/-- The method `String::toFloat` (`atof`, narrowed to `float`) on a string of digits
and `'.'`, the only strings the source applies it to: the longest prefix of the form
`digits [. digits]` with at least one digit is converted, correctly rounded, to
`double` and then to `float`; without a digit the result is 0. -/
def toFloat (s : List Char) : Flt :=
  let ip := s.takeWhile isdigit
  let rest := s.dropWhile isdigit
  let fp := if rest.head? == some '.' then rest.tail.takeWhile isdigit else []
  if ip.isEmpty && fp.isEmpty then .fin false 0 0
  else (binary64.round false (natOfDigits (ip ++ fp)) (10 ^ fp.length)).narrow binary32

/-! ## Command parsing -/

/-- The function `tryParseInt`: the whole string must be one integer. -/
def tryParseInt (s : List Char) : Option Int :=
  match strtol s with
  | some (v, []) => some v
  | _ => none

/-- The function `tryParseJsonPercent`. -/
def tryParseJsonPercent (s : List Char) : Option Int :=
  let idx := (indexOfStr "speed".toList s).orElse (fun _ => indexOfStr "percent".toList s)
  match idx with
  | none => none
  | some idx =>
    match indexOfCharFrom s ':' idx with
    | none => none
    | some colon =>
      let afterWs := (s.drop (colon + 1)).dropWhile isspace
      let numStr := afterWs.takeWhile (fun c => isdigit c || c == '.')
      some (roundToInt (toFloat numStr))

/-- The function `parseSpeedCommand`; `none` is the `false` return. -/
def parseSpeedCommand (payload : List Char) : Option Int :=
  let s := trim payload
  if "RAW:".toList.isPrefixOf s || "raw:".toList.isPrefixOf s then
    match tryParseInt (s.drop 4) with
    | some v => some (dutyToPercent v)
    | none => none
  else if "\x7b".toList.isPrefixOf s && "\x7d".toList.isSuffixOf s then
    match tryParseJsonPercent s with
    | some pct => some (constrain pct 0 100)
    | none => none
  else
    match tryParseInt s with
    | some val =>
      if val ≤ 100 then some (constrain val 0 100)
      else some (dutyToPercent (constrain val 0 DUTY_MAX))
    | none => none

/-- The function `parseBoolParam`; `none` is the null pointer. -/
def parseBoolParam (value : Option (List Char)) : Bool :=
  match value with
  | none => false
  | some v =>
    match v.dropWhile isspace with
    | [] => false
    | c0 :: t =>
      let c := tolower c0
      if c == '1' || c == 't' || c == 'y' then true
      else if c == '0' || c == 'f' || c == 'n' then false
      else if c == 'o' && (t.head?.map tolower) == some 'n' then true
      else false

/-! ## Controller state and environment -/

/-- The struct `Config` (`currentConfig`). -/
structure Config where
  mqtt_enabled : Bool
  mqtt_host : List Char
  mqtt_port : Int
  mqtt_user : List Char
  mqtt_pass : List Char
  mqtt_command_topic : List Char
  mqtt_state_topic : List Char
  mqtt_status_topic : List Char
  fan_default_speed_pct : Int
  fan_default_on : Bool
deriving DecidableEq, Repr

/-- Calls that leave the controller, in the order they are made.  `stateReport d`
records an invocation `publishStateFromDuty(d)`; the other events are calls into the
PWM driver, the MQTT client, the preferences store and the Wi-Fi driver. -/
inductive Event where
  | ledcWrite (dutyActiveLow : Int)
  | stateReport (dutyActiveHigh : Int)
  | mqttConnect
  | mqttPublishStatus (status : List Char)
  | mqttSubscribe
  | mqttPublishState (duty : Int) (setpoint : Int) (ok : Bool)
  | mqttDisconnect
  | saveConfig
  | wifiReconnect
deriving DecidableEq, Repr

/-- The global variables of the firmware, the connection state of the MQTT client
object (`mqtt.connected()`), and the trace of outgoing calls. -/
structure State where
  cfg : Config
  mqttConnected : Bool
  mqttWasConnected : Bool
  lastMqttAttemptMs : Nat
  lastWifiStatus : Nat
  mqttStateDirty : Bool
  pendingDutyActiveHigh : Int
  pendingPercentAfterStart : Int
  pendingPercentApplyMs : Nat
  currentDuty : Int
  currentPercent : Int
  lastUserPercent : Int
  trace : List Event

/-- What the collaborators answer during one handler invocation or one loop
iteration: the clock, the Wi-Fi status code, whether `mqtt.connect` succeeds, and
whether the `mqtt.publish` on the state topic succeeds, as a function of the position
its event takes in the trace.  Time is taken not to advance within one invocation. -/
structure Env where
  now : Nat
  wifiStatus : Nat
  connectOk : Bool
  publishOk : Nat → Bool

/-- The status code `WL_CONNECTED`. -/
def WL_CONNECTED : Nat := 3

/-- The constant `MQTT_RETRY_INTERVAL_MS`. -/
def MQTT_RETRY_INTERVAL_MS : Nat := 5000

/-- The constant `SOFT_START_SETTLE_MS`. -/
def SOFT_START_SETTLE_MS : Nat := 800

/-- The call `millis()`: a 32-bit `unsigned long`. -/
def millis (env : Env) : Nat :=
  env.now % 2 ^ 32

/-- Append an outgoing call to the trace. -/
def State.emit (s : State) (e : Event) : State :=
  { s with trace := s.trace ++ [e] }

/-- The function `writeDutyActiveLow`. -/
def writeDutyActiveLow (dutyActiveHigh : Int) (s : State) : State :=
  { s.emit (.ledcWrite (invertDuty dutyActiveHigh)) with currentDuty := dutyActiveHigh }

/-- The function `publishMqttStatus` (called with a non-null text). -/
def publishMqttStatus (status : List Char) (s : State) : State :=
  if !s.cfg.mqtt_enabled then s
  else if !s.mqttConnected then s
  else s.emit (.mqttPublishStatus status)

/-- The two assignments `pendingDutyActiveHigh = dutyActiveHigh; mqttStateDirty = true`
of `publishStateFromDuty`. -/
def markDirty (dutyActiveHigh : Int) (s : State) : State :=
  { s with pendingDutyActiveHigh := dutyActiveHigh, mqttStateDirty := true }

/-- The second half of `publishStateFromDuty`, reached when the client is connected:
format the payload, publish it retained, and update the dirty flag.  The
`mqtt.loop()` that ends it is taken to deliver no message; inbound messages are
delivered by the `mqtt.loop()` of the run loop. -/
def publishStateNow (env : Env) (dutyActiveHigh : Int) (s : State) : State :=
  let setpoint := constrain s.lastUserPercent 0 100
  let ok := env.publishOk s.trace.length
  let s := s.emit (.mqttPublishState dutyActiveHigh setpoint ok)
  if ok then { s with mqttStateDirty := false } else markDirty dutyActiveHigh s

/-- Body of `publishStateFromDuty`, with the call of `ensureMqtt` it contains passed
as `ensure`. -/
def publishStateFromDutyAux (ensure : State → State) (env : Env) (dutyActiveHigh : Int)
    (s : State) : State :=
  let s := s.emit (.stateReport dutyActiveHigh)
  if !s.cfg.mqtt_enabled then s
  else if s.mqttConnected then publishStateNow env dutyActiveHigh s
  else
    let s := ensure (markDirty dutyActiveHigh s)
    if s.mqttConnected then publishStateNow env dutyActiveHigh s else s

/-- The tail of `ensureMqtt` after `mqtt.connect` has succeeded: announce "online",
subscribe to the command topic and publish the state, the pending dirty duty if there
is one and the current duty otherwise.  `publish` is the function called to publish. -/
def connectSucceeded (publish : Int → State → State) (s : State) : State :=
  let s := { s with mqttConnected := true, mqttWasConnected := true }
  let s := publishMqttStatus "online".toList s
  let s := s.emit .mqttSubscribe
  publish (if s.mqttStateDirty then s.pendingDutyActiveHigh else s.currentDuty) s

/-- Body of `ensureMqtt`, with the function it calls to publish the state passed as
`publish`.  The guarded assignments `if (!mqttWasConnected) mqttWasConnected = true`
and `if (mqttWasConnected) mqttWasConnected = false` are written as plain assignments. -/
def ensureMqttAux (publish : Int → State → State) (env : Env) (s : State) : State :=
  if !s.cfg.mqtt_enabled then s
  else if s.mqttConnected then { s with mqttWasConnected := true }
  else if ((millis env : Int) - (s.lastMqttAttemptMs : Int)) % 2 ^ 32
      < (MQTT_RETRY_INTERVAL_MS : Int) then s
  else if env.wifiStatus ≠ WL_CONNECTED then
    { s with lastMqttAttemptMs := millis env, mqttWasConnected := false }
  else
    let s := State.emit { s with lastMqttAttemptMs := millis env, mqttWasConnected := false }
      .mqttConnect
    if env.connectOk then connectSucceeded publish s else s

/-- The function `ensureMqtt`.  It calls `publishStateFromDuty` only right after a
successful connect, where that function does not call back into `ensureMqtt`. -/
def ensureMqtt (env : Env) (s : State) : State :=
  ensureMqttAux (publishStateFromDutyAux id env) env s

/-- The function `publishStateFromDuty`. -/
def publishStateFromDuty (env : Env) (dutyActiveHigh : Int) (s : State) : State :=
  publishStateFromDutyAux (ensureMqtt env) env dutyActiveHigh s

/-- The function `handleFanSpeed`.  Each conditional assignment of the source is
written as the new value of the variable it assigns. -/
def handleFanSpeed (env : Env) (percent : Int) (s : State) : State :=
  let requested := constrain percent 0 100
  let effective := if requested > 0 ∧ requested < PCT_MIN_RUN then PCT_MIN_RUN else requested
  let s := if s.cfg.mqtt_enabled && !s.mqttConnected then ensureMqtt env s else s
  let softStart : Bool := decide (s.currentDuty = 0 ∧ effective > 0 ∧ effective < PCT_MIN_START)
  let s :=
    { s with
      pendingPercentAfterStart :=
        if softStart then max requested PCT_MIN_RUN else s.pendingPercentAfterStart
      pendingPercentApplyMs :=
        if softStart then (millis env + SOFT_START_SETTLE_MS) % 2 ^ 32 else 0 }
  let effective := if softStart then PCT_MIN_START else effective
  let s := writeDutyActiveLow (percentToDuty effective) s
  let s := { s with currentPercent := if effective = 0 then 0 else dutyToPercent s.currentDuty }
  let s :=
    { s with lastUserPercent := if requested > 0 then max requested PCT_MIN_RUN
                                else s.lastUserPercent }
  let s :=
    { s with pendingPercentAfterStart := if requested = 0 then 0
                                         else s.pendingPercentAfterStart }
  publishStateFromDuty env
    (if softStart then percentToDuty s.pendingPercentAfterStart else s.currentDuty) s

/-- The function `mqttCallback`; `payload` holds the `length` bytes received, and
`msg.c_str()` ends at the first NUL among them. -/
def mqttCallback (env : Env) (payload : List Char) (s : State) : State :=
  if !s.cfg.mqtt_enabled then s
  else
    match parseSpeedCommand (payload.takeWhile (fun c => c != '\x00')) with
    | some percent => handleFanSpeed env percent s
    | none => s

/-- The function `saveConfig`: writes `currentConfig` to the preferences store. -/
def saveConfig (s : State) : State :=
  s.emit .saveConfig

/-- Query arguments of a request to `/fan`. -/
structure FanRequest where
  default_on : Option (List Char)
  state : Option (List Char)
  speed : Option (List Char)
deriving DecidableEq, Repr

/-- The function `handleFanApi`. -/
def handleFanApi (env : Env) (req : FanRequest) (s : State) : State :=
  let s :=
    match req.default_on with
    | some v => saveConfig { s with cfg := { s.cfg with fan_default_on := parseBoolParam (some v) } }
    | none => s
  match req.state with
  | some state =>
    if state = "on".toList then
      handleFanSpeed env
        (if s.lastUserPercent > 0 then s.lastUserPercent else s.cfg.fan_default_speed_pct) s
    else if state = "off".toList then handleFanSpeed env 0 s
    else s
  | none =>
    match req.speed with
    | some speed =>
      let requested := constrain (toInt speed) 0 100
      let stored := if requested > 0 then max requested PCT_MIN_RUN else 0
      let s :=
        if stored > 0 then
          saveConfig { s with lastUserPercent := stored,
                              cfg := { s.cfg with fan_default_speed_pct := stored } }
        else s
      if s.currentDuty = 0 ∧ s.currentPercent = 0 then
        publishStateFromDuty env s.currentDuty
          { s with pendingPercentAfterStart := 0, pendingPercentApplyMs := 0 }
      else handleFanSpeed env requested s
    | none => s

/-- The soft-start poll of `loop` (the last statement of its connected branch). -/
def pollSoftStart (env : Env) (s : State) : State :=
  if s.pendingPercentAfterStart > 0 ∧ millis env ≥ s.pendingPercentApplyMs ∧
      s.currentPercent > s.pendingPercentAfterStart then
    handleFanSpeed env s.pendingPercentAfterStart
      { s with pendingPercentAfterStart := 0, pendingPercentApplyMs := 0 }
  else s

/-- What reaches the device during one iteration of `loop`: whether the MQTT link
was lost since the last iteration, the message `mqtt.loop()` hands to the callback,
and the `/fan` request `server.handleClient()` dispatches (if any). -/
structure Inbound where
  linkLost : Bool
  mqttMsg : Option (List Char)
  fanReq : Option FanRequest
deriving DecidableEq, Repr

/-- An iteration without inbound traffic. -/
def Inbound.quiet : Inbound :=
  { linkLost := false, mqttMsg := none, fanReq := none }

/-- The first block of `loop`: note a change of the Wi-Fi status. -/
def trackWifi (env : Env) (s : State) : State :=
  if env.wifiStatus ≠ s.lastWifiStatus then
    { s with
      lastWifiStatus := env.wifiStatus
      mqttWasConnected := if env.wifiStatus ≠ WL_CONNECTED then false else s.mqttWasConnected }
  else s

/-- The MQTT block of the connected branch of `loop`: reconnect and run `mqtt.loop()`
(which hands an inbound message to `mqttCallback`) when MQTT is enabled, disconnect
when it has been switched off. -/
def serviceMqtt (env : Env) (inb : Inbound) (s : State) : State :=
  if s.cfg.mqtt_enabled then
    let s := if !s.mqttConnected then ensureMqtt env s else s
    match inb.mqttMsg with
    | some msg => if s.mqttConnected then mqttCallback env msg s else s
    | none => s
  else if s.mqttConnected then
    { s.emit .mqttDisconnect with mqttConnected := false, mqttWasConnected := false }
  else s

/-- The call `server.handleClient()` of `loop`. -/
def serviceHttp (env : Env) (inb : Inbound) (s : State) : State :=
  match inb.fanReq with
  | some req => handleFanApi env req s
  | none => s

/-- The function `loop`, one iteration. -/
def loop (env : Env) (inb : Inbound) (s : State) : State :=
  let s := if inb.linkLost then { s with mqttConnected := false } else s
  let s := trackWifi env s
  if env.wifiStatus = WL_CONNECTED then
    pollSoftStart env (serviceHttp env inb (serviceMqtt env inb s))
  else s.emit .wifiReconnect

/-- Run `loop` over a sequence of iterations. -/
def runLoop (ticks : List (Env × Inbound)) (s : State) : State :=
  ticks.foldl (fun st t => loop t.1 t.2 st) s

/-- The duty an event reports, for the events that record an invocation of
`publishStateFromDuty`. -/
def Event.reported : Event → Option Int
  | .stateReport d => some d
  | _ => none

/-- The argument of the last `publishStateFromDuty` invocation in a trace. -/
def lastStateReport (tr : List Event) : Option Int :=
  (tr.filterMap Event.reported).getLast?

/-- The state after `setupPwm`, before the power-on policy runs: fan stopped. -/
def State.boot (cfg : Config) : State :=
  { cfg := cfg, mqttConnected := false, mqttWasConnected := false, lastMqttAttemptMs := 0,
    lastWifiStatus := 0, mqttStateDirty := false, pendingDutyActiveHigh := 0,
    pendingPercentAfterStart := 0, pendingPercentApplyMs := 0, currentDuty := 0,
    currentPercent := 0, lastUserPercent := 0, trace := [] }

/-- The configuration `loadConfig` yields on an empty preferences store. -/
def Config.factory : Config :=
  { mqtt_enabled := false, mqtt_host := "192.168.2.231".toList, mqtt_port := 1883,
    mqtt_user := [], mqtt_pass := [],
    mqtt_command_topic := "bambu/p1s/fan/cmd".toList,
    mqtt_state_topic := "bambu/p1s/fan/state".toList,
    mqtt_status_topic := "bambu/p1s/fan/status".toList,
    fan_default_speed_pct := 50, fan_default_on := true }

/-- The factory configuration with the MQTT toggle switched on. -/
def Config.withMqtt : Config :=
  { Config.factory with mqtt_enabled := true }

/-- An environment at clock reading `now` in which Wi-Fi is connected and every
MQTT call succeeds. -/
def Env.online (now : Nat) : Env :=
  { now := now, wifiStatus := WL_CONNECTED, connectOk := true, publishOk := fun _ => true }

/-- An environment at clock reading `now` without Wi-Fi, in which every MQTT call
fails. -/
def Env.offline (now : Nat) : Env :=
  { now := now, wifiStatus := 6, connectOk := false, publishOk := fun _ => false }

/-- The fan variables of a state (duty, percent, setpoint, pending target, deadline)
and the configuration. -/
def State.fan (s : State) : Int × Int × Int × Int × Nat × Config :=
  (s.currentDuty, s.currentPercent, s.lastUserPercent, s.pendingPercentAfterStart,
    s.pendingPercentApplyMs, s.cfg)

/-- The last state report in the trace of `s` is `d`. -/
def Reported (d : Int) (s : State) : Prop :=
  lastStateReport s.trace = some d

/-- The soft-start test of `handleFanSpeed`: fan stopped and the effective percent
strictly between 0 and `PCT_MIN_START`. -/
def softStartTest (percent : Int) (s : State) : Bool :=
  decide (s.currentDuty = 0 ∧
    (if constrain percent 0 100 > 0 ∧ constrain percent 0 100 < PCT_MIN_RUN then PCT_MIN_RUN
      else constrain percent 0 100) > 0 ∧
    (if constrain percent 0 100 > 0 ∧ constrain percent 0 100 < PCT_MIN_RUN then PCT_MIN_RUN
      else constrain percent 0 100) < PCT_MIN_START)

/-- The percent `handleFanSpeed` converts to the duty it writes. -/
def drivenPercent (percent : Int) (s : State) : Int :=
  if softStartTest percent s then PCT_MIN_START
  else if constrain percent 0 100 > 0 ∧ constrain percent 0 100 < PCT_MIN_RUN then PCT_MIN_RUN
  else constrain percent 0 100

/-- The assignments `handleFanSpeed` makes between its `ensureMqtt` call and its
`publishStateFromDuty` call, gathered into one record update (`handleFanSpeed_eq`
shows that this is what the function does). -/
def fanUpdate (env : Env) (percent : Int) (s : State) : State :=
  { s with
    pendingPercentAfterStart :=
      if constrain percent 0 100 = 0 then 0
      else if softStartTest percent s then max (constrain percent 0 100) PCT_MIN_RUN
      else s.pendingPercentAfterStart
    pendingPercentApplyMs :=
      if softStartTest percent s then (millis env + SOFT_START_SETTLE_MS) % 2 ^ 32 else 0
    currentDuty := percentToDuty (drivenPercent percent s)
    currentPercent :=
      if drivenPercent percent s = 0 then 0
      else dutyToPercent (percentToDuty (drivenPercent percent s))
    lastUserPercent :=
      if constrain percent 0 100 > 0 then max (constrain percent 0 100) PCT_MIN_RUN
      else s.lastUserPercent
    trace := s.trace ++ [Event.ledcWrite (invertDuty (percentToDuty (drivenPercent percent s)))] }

/-! ## Configuration update -/

/-- The values `getValue()` returns for the portal fields (the `WiFiManagerParameter`
objects `custom_...`); `none` is a null pointer. -/
structure Params where
  custom_mqtt_enable_hidden : Option (List Char)
  custom_mqtt_host : Option (List Char)
  custom_mqtt_port : Option (List Char)
  custom_mqtt_user : Option (List Char)
  custom_mqtt_pass : Option (List Char)
  custom_mqtt_cmd_topic : Option (List Char)
  custom_mqtt_state_topic : Option (List Char)
  custom_mqtt_status_topic : Option (List Char)
  custom_fan_def_spd : Option (List Char)
  custom_fan_def_on : Option (List Char)
deriving DecidableEq, Repr

/-- The lambda `safeCopy` of `updateConfigFromParameters`: `strncpy` into a buffer of
`size` bytes whose last byte is then set to NUL; a null source counts as empty. -/
def safeCopy (size : Nat) (src : Option (List Char)) : List Char :=
  (src.getD []).take (size - 1)

/-- The working copy `newConfig` that `updateConfigFromParameters` builds from the
current configuration and the portal fields (`atoi` is `toInt`). -/
def mergeParameters (p : Params) (cur : Config) : Config :=
  let speed : Int :=
    match p.custom_fan_def_spd with
    | some v => if v.isEmpty then cur.fan_default_speed_pct else constrain (toInt v) 0 100
    | none => cur.fan_default_speed_pct
  { mqtt_enabled := parseBoolParam p.custom_mqtt_enable_hidden
    mqtt_host := safeCopy 40 p.custom_mqtt_host
    mqtt_user := safeCopy 40 p.custom_mqtt_user
    mqtt_pass := safeCopy 40 p.custom_mqtt_pass
    mqtt_command_topic := safeCopy 100 p.custom_mqtt_cmd_topic
    mqtt_state_topic := safeCopy 100 p.custom_mqtt_state_topic
    mqtt_status_topic := safeCopy 100 p.custom_mqtt_status_topic
    mqtt_port :=
      match p.custom_mqtt_port with
      | some v =>
        if v.isEmpty then 1883
        else if toInt v > 0 ∧ toInt v ≤ 65535 then toInt v
        else cur.mqtt_port
      | none => 1883
    fan_default_speed_pct := if speed > 0 ∧ speed < PCT_MIN_RUN then PCT_MIN_RUN else speed
    fan_default_on := parseBoolParam p.custom_fan_def_on }

/-- The function `updateConfigFromParameters`: the returned flag `changed` and the
state it leaves.  Its closing call `applyConfigToParameters()` only rewrites the
portal fields, which are an input here. -/
def updateConfigFromParameters (p : Params) (s : State) : Bool × State :=
  let newConfig := mergeParameters p s.cfg
  let changed : Bool :=
    decide (newConfig.mqtt_enabled ≠ s.cfg.mqtt_enabled ∨
      newConfig.mqtt_host ≠ s.cfg.mqtt_host ∨
      newConfig.mqtt_user ≠ s.cfg.mqtt_user ∨
      newConfig.mqtt_pass ≠ s.cfg.mqtt_pass ∨
      newConfig.mqtt_command_topic ≠ s.cfg.mqtt_command_topic ∨
      newConfig.mqtt_state_topic ≠ s.cfg.mqtt_state_topic ∨
      newConfig.mqtt_status_topic ≠ s.cfg.mqtt_status_topic ∨
      newConfig.mqtt_port ≠ s.cfg.mqtt_port ∨
      newConfig.fan_default_speed_pct ≠ s.cfg.fan_default_speed_pct ∨
      newConfig.fan_default_on ≠ s.cfg.fan_default_on)
  (changed,
    if changed then
      { s with
        cfg := newConfig
        lastUserPercent :=
          if newConfig.fan_default_speed_pct > 0 then newConfig.fan_default_speed_pct else 0 }
    else s)

/-- The portal fields as `applyConfigToParameters` would fill them for the factory
configuration. -/
def Params.factory : Params :=
  { custom_mqtt_enable_hidden := some "0".toList
    custom_mqtt_host := some "192.168.2.231".toList
    custom_mqtt_port := some "1883".toList
    custom_mqtt_user := some []
    custom_mqtt_pass := some []
    custom_mqtt_cmd_topic := some "bambu/p1s/fan/cmd".toList
    custom_mqtt_state_topic := some "bambu/p1s/fan/state".toList
    custom_mqtt_status_topic := some "bambu/p1s/fan/status".toList
    custom_fan_def_spd := some "50".toList
    custom_fan_def_on := some "true".toList }

/-! ## Observations on traces and states -/

/-- Number of `mqtt.connect` calls in a trace. -/
def connectAttempts (tr : List Event) : Nat :=
  tr.count Event.mqttConnect

/-- The duty a publish on the state topic carries, for the events that are one. -/
def Event.published : Event → Option Int
  | .mqttPublishState d _ _ => some d
  | _ => none

/-- The duties published on the state topic, in order. -/
def statePublishes (tr : List Event) : List Int :=
  tr.filterMap Event.published

/-- The state predicate of the data model: the duty fits the PWM resolution, and the
effective percent and the setpoint are each 0 or in [`PCT_MIN_RUN`, 100]. -/
def FanInv (s : State) : Prop :=
  (0 ≤ s.currentDuty ∧ s.currentDuty ≤ 1023) ∧
  (s.currentPercent = 0 ∨ (15 ≤ s.currentPercent ∧ s.currentPercent ≤ 100)) ∧
  (s.lastUserPercent = 0 ∨ (15 ≤ s.lastUserPercent ∧ s.lastUserPercent ≤ 100))

/-! ## The single-precision conversions, evaluated -/

/-- On 0..100 the single-precision `percentToDuty` agrees with exact rounding to
nearest of `pct * 1023 / 100` (after the raise to `PCT_MIN_RUN`). -/
theorem percentToDuty_table :
    ∀ n : Nat, n < 101 →
      percentToDuty (n : Int) = (((if 0 < n ∧ n < 15 then 15 else n) * 1023 + 50) / 100 : Nat) := by
  decide!

/-- The conversion `dutyToPercent` evaluated on the duties 0..127. -/
theorem dutyToPercent_table_0 :
    ∀ v : Nat, v < 128 → 0 ≤ v → dutyToPercent (v : Int) = ((200 * v + 1023) / 2046 : Nat) := by
  decide!

/-- The conversion `dutyToPercent` evaluated on the duties 128..255. -/
theorem dutyToPercent_table_1 :
    ∀ v : Nat, v < 256 → 128 ≤ v → dutyToPercent (v : Int) = ((200 * v + 1023) / 2046 : Nat) := by
  decide!

/-- The conversion `dutyToPercent` evaluated on the duties 256..383. -/
theorem dutyToPercent_table_2 :
    ∀ v : Nat, v < 384 → 256 ≤ v → dutyToPercent (v : Int) = ((200 * v + 1023) / 2046 : Nat) := by
  decide!

/-- The conversion `dutyToPercent` evaluated on the duties 384..511. -/
theorem dutyToPercent_table_3 :
    ∀ v : Nat, v < 512 → 384 ≤ v → dutyToPercent (v : Int) = ((200 * v + 1023) / 2046 : Nat) := by
  decide!

/-- The conversion `dutyToPercent` evaluated on the duties 512..639. -/
theorem dutyToPercent_table_4 :
    ∀ v : Nat, v < 640 → 512 ≤ v → dutyToPercent (v : Int) = ((200 * v + 1023) / 2046 : Nat) := by
  decide!

/-- The conversion `dutyToPercent` evaluated on the duties 640..767. -/
theorem dutyToPercent_table_5 :
    ∀ v : Nat, v < 768 → 640 ≤ v → dutyToPercent (v : Int) = ((200 * v + 1023) / 2046 : Nat) := by
  decide!

/-- The conversion `dutyToPercent` evaluated on the duties 768..895. -/
theorem dutyToPercent_table_6 :
    ∀ v : Nat, v < 896 → 768 ≤ v → dutyToPercent (v : Int) = ((200 * v + 1023) / 2046 : Nat) := by
  decide!

/-- The conversion `dutyToPercent` evaluated on the duties 896..1023. -/
theorem dutyToPercent_table_7 :
    ∀ v : Nat, v < 1024 → 896 ≤ v → dutyToPercent (v : Int) = ((200 * v + 1023) / 2046 : Nat) := by
  decide!

/-- On 0..1023 the single-precision `dutyToPercent` agrees with exact rounding to
nearest of `100 * v / 1023`. -/
theorem dutyToPercent_table (v : Nat) (h : v < 1024) :
    dutyToPercent (v : Int) = ((200 * v + 1023) / 2046 : Nat) := by
  by_cases h0 : v < 128
  · exact dutyToPercent_table_0 v h0 (by omega)
  by_cases h1 : v < 256
  · exact dutyToPercent_table_1 v h1 (by omega)
  by_cases h2 : v < 384
  · exact dutyToPercent_table_2 v h2 (by omega)
  by_cases h3 : v < 512
  · exact dutyToPercent_table_3 v h3 (by omega)
  by_cases h4 : v < 640
  · exact dutyToPercent_table_4 v h4 (by omega)
  by_cases h5 : v < 768
  · exact dutyToPercent_table_5 v h5 (by omega)
  by_cases h6 : v < 896
  · exact dutyToPercent_table_6 v h6 (by omega)
  exact dutyToPercent_table_7 v h (by omega)

theorem constrain_mem (amt low high : Int) (h : low ≤ high) :
    low ≤ constrain amt low high ∧ constrain amt low high ≤ high := by
  unfold constrain
  split_ifs <;> omega

theorem constrain_of_mem (amt low high : Int) (h1 : low ≤ amt) (h2 : amt ≤ high) :
    constrain amt low high = amt := by
  unfold constrain
  split_ifs <;> omega

theorem percentToDuty_constrain (pct : Int) :
    percentToDuty (constrain pct 0 100) = percentToDuty pct := by
  have h := constrain_mem pct 0 100 (by decide)
  unfold percentToDuty
  rw [constrain_of_mem (constrain pct 0 100) 0 100 h.1 h.2]

/-- Closed form of `percentToDuty` on every `int`. -/
theorem percentToDuty_eq (pct : Int) :
    percentToDuty pct =
      ((if 0 < constrain pct 0 100 ∧ constrain pct 0 100 < 15 then 15 else constrain pct 0 100)
        * 1023 + 50) / 100 := by
  obtain ⟨h1, h2⟩ := constrain_mem pct 0 100 (by decide)
  rw [← percentToDuty_constrain]
  generalize constrain pct 0 100 = c at h1 h2
  obtain ⟨n, rfl⟩ := Int.eq_ofNat_of_zero_le h1
  rw [percentToDuty_table n (by omega)]
  split_ifs <;> omega

/-- Closed form of `dutyToPercent` on the duty range. -/
theorem dutyToPercent_eq (v : Int) (h1 : 0 ≤ v) (h2 : v ≤ 1023) :
    dutyToPercent v = (200 * v + 1023) / 2046 := by
  obtain ⟨n, rfl⟩ := Int.eq_ofNat_of_zero_le h1
  rw [dutyToPercent_table n (by omega)]
  norm_cast

/-! ## Frame lemmas: the MQTT session code does not touch the fan variables -/

theorem fan_eq_iff (s t : State) :
    s.fan = t.fan ↔ s.currentDuty = t.currentDuty ∧ s.currentPercent = t.currentPercent ∧
      s.lastUserPercent = t.lastUserPercent ∧
      s.pendingPercentAfterStart = t.pendingPercentAfterStart ∧
      s.pendingPercentApplyMs = t.pendingPercentApplyMs ∧ s.cfg = t.cfg := by
  simp only [State.fan, Prod.mk.injEq]

theorem emit_fan (e : Event) (s : State) : (s.emit e).fan = s.fan := rfl

theorem markDirty_fan (d : Int) (s : State) : (markDirty d s).fan = s.fan := rfl

theorem publishMqttStatus_fan (st : List Char) (s : State) :
    (publishMqttStatus st s).fan = s.fan := by
  unfold publishMqttStatus
  split_ifs <;> rfl

theorem publishStateNow_fan (env : Env) (d : Int) (s : State) :
    (publishStateNow env d s).fan = s.fan := by
  unfold publishStateNow
  simp only []
  split_ifs <;> rfl

theorem publishStateFromDutyAux_fan (f : State → State) (hf : ∀ t, (f t).fan = t.fan)
    (env : Env) (d : Int) (s : State) :
    (publishStateFromDutyAux f env d s).fan = s.fan := by
  unfold publishStateFromDutyAux
  simp only []
  split_ifs <;> simp only [publishStateNow_fan, hf, markDirty_fan, emit_fan]

theorem connectSucceeded_fan (g : Int → State → State) (hg : ∀ d t, (g d t).fan = t.fan)
    (s : State) : (connectSucceeded g s).fan = s.fan := by
  unfold connectSucceeded
  simp only []
  rw [hg, emit_fan, publishMqttStatus_fan]
  rfl

theorem ensureMqttAux_fan (g : Int → State → State) (hg : ∀ d t, (g d t).fan = t.fan)
    (env : Env) (s : State) :
    (ensureMqttAux g env s).fan = s.fan := by
  unfold ensureMqttAux
  simp only []
  split_ifs
  any_goals rfl
  rw [connectSucceeded_fan g hg]
  rfl

theorem ensureMqtt_fan (env : Env) (s : State) : (ensureMqtt env s).fan = s.fan :=
  ensureMqttAux_fan _ (fun d t => publishStateFromDutyAux_fan id (fun _ => rfl) env d t) env s

theorem publishStateFromDuty_fan (env : Env) (d : Int) (s : State) :
    (publishStateFromDuty env d s).fan = s.fan :=
  publishStateFromDutyAux_fan _ (ensureMqtt_fan env) env d s

/-- The function `handleFanSpeed` is: the optional `ensureMqtt` call, the record update
`fanUpdate`, and the state publication. -/
theorem handleFanSpeed_eq (env : Env) (percent : Int) (s : State) :
    handleFanSpeed env percent s =
      publishStateFromDuty env
        (if softStartTest percent
            (if s.cfg.mqtt_enabled && !s.mqttConnected then ensureMqtt env s else s)
          then percentToDuty (fanUpdate env percent
            (if s.cfg.mqtt_enabled && !s.mqttConnected then ensureMqtt env s
              else s)).pendingPercentAfterStart
          else (fanUpdate env percent
            (if s.cfg.mqtt_enabled && !s.mqttConnected then ensureMqtt env s
              else s)).currentDuty)
        (fanUpdate env percent
          (if s.cfg.mqtt_enabled && !s.mqttConnected then ensureMqtt env s else s)) :=
  rfl

/-- The fan variables after `handleFanSpeed`, field by field. -/
theorem handleFanSpeed_fan (env : Env) (percent : Int) (s : State) :
    (handleFanSpeed env percent s).fan =
      (let requested := constrain percent 0 100
       let effective := if requested > 0 ∧ requested < PCT_MIN_RUN then PCT_MIN_RUN else requested
       let softStart : Bool :=
         decide (s.currentDuty = 0 ∧ effective > 0 ∧ effective < PCT_MIN_START)
       let effective := if softStart then PCT_MIN_START else effective
       (percentToDuty effective,
        (if effective = 0 then 0 else dutyToPercent (percentToDuty effective)),
        (if requested > 0 then max requested PCT_MIN_RUN else s.lastUserPercent),
        (if requested = 0 then 0
         else if softStart then max requested PCT_MIN_RUN else s.pendingPercentAfterStart),
        (if softStart then (millis env + SOFT_START_SETTLE_MS) % 2 ^ 32 else 0),
        s.cfg)) := by
  have h0 : (if s.cfg.mqtt_enabled && !s.mqttConnected then ensureMqtt env s else s).fan
      = s.fan := by
    split_ifs
    · exact ensureMqtt_fan env s
    · rfl
  rw [handleFanSpeed_eq, publishStateFromDuty_fan]
  generalize (if s.cfg.mqtt_enabled && !s.mqttConnected then ensureMqtt env s else s) = s0 at h0
  obtain ⟨h1, -, h3, h4, -, h6⟩ := (fan_eq_iff s0 s).1 h0
  simp only [State.fan, fanUpdate, drivenPercent, softStartTest, h1, h3, h4, h6]

/-! ## The trace: which duty the state publication is called with -/

theorem lastStateReport_append_singleton (l : List Event) (e : Event) :
    lastStateReport (l ++ [e]) = (e.reported).or (lastStateReport l) := by
  cases e <;> simp [lastStateReport, Event.reported, List.filterMap_append]

theorem reported_emit_report (d : Int) (s : State) :
    Reported d (s.emit (.stateReport d)) := by
  simp only [Reported, State.emit, lastStateReport_append_singleton, Event.reported, Option.or]

theorem reported_emit (d : Int) (s : State) (e : Event) (he : e.reported = none)
    (h : Reported d s) : Reported d (s.emit e) := by
  simp only [Reported, State.emit, lastStateReport_append_singleton, he] at h ⊢
  simpa using h

theorem reported_markDirty (d d2 : Int) (s : State) (h : Reported d s) :
    Reported d (markDirty d2 s) := h

theorem reported_publishMqttStatus (d : Int) (st : List Char) (s : State) (h : Reported d s) :
    Reported d (publishMqttStatus st s) := by
  unfold publishMqttStatus
  split_ifs
  · exact h
  · exact h
  · exact reported_emit d s _ rfl h

theorem reported_publishStateNow (env : Env) (d d2 : Int) (s : State) (h : Reported d s) :
    Reported d (publishStateNow env d2 s) := by
  unfold publishStateNow
  simp only []
  split_ifs
  · exact reported_emit d s _ rfl h
  · exact reported_markDirty d d2 _ (reported_emit d s _ rfl h)

theorem reported_publishStateFromDutyAux (f : State → State)
    (hf : ∀ t : State, t.mqttStateDirty = true → Reported t.pendingDutyActiveHigh t →
      Reported t.pendingDutyActiveHigh (f t))
    (env : Env) (d : Int) (s : State) :
    Reported d (publishStateFromDutyAux f env d s) := by
  have h1 := reported_emit_report d s
  have h2 : Reported d (f (markDirty d (s.emit (.stateReport d)))) :=
    hf (markDirty d (s.emit (.stateReport d))) rfl h1
  unfold publishStateFromDutyAux
  simp only []
  split_ifs
  · exact h1
  · exact reported_publishStateNow env d d _ h1
  · exact reported_publishStateNow env d d _ h2
  · exact h2

theorem reported_ensureMqttAux (g : Int → State → State) (hg : ∀ d t, Reported d (g d t))
    (env : Env) (t : State) (hd : t.mqttStateDirty = true)
    (ht : Reported t.pendingDutyActiveHigh t) :
    Reported t.pendingDutyActiveHigh (ensureMqttAux g env t) := by
  unfold ensureMqttAux
  simp only []
  split_ifs
  any_goals exact ht
  · have h : ∀ u : State, u.mqttStateDirty = true →
        Reported u.pendingDutyActiveHigh (connectSucceeded g u) := by
      intro u hu
      have e1 : (publishMqttStatus "online".toList
          { u with mqttConnected := true, mqttWasConnected := true }).mqttStateDirty = true := by
        unfold publishMqttStatus
        split_ifs <;> exact hu
      have e2 : (publishMqttStatus "online".toList
          { u with mqttConnected := true, mqttWasConnected := true }).pendingDutyActiveHigh
            = u.pendingDutyActiveHigh := by
        unfold publishMqttStatus
        split_ifs <;> rfl
      unfold connectSucceeded
      simp only [State.emit, e1, e2, if_true]
      exact hg _ _
    exact h _ hd
  · exact reported_emit _ _ _ rfl ht

theorem reported_ensureMqtt (env : Env) (t : State) (hd : t.mqttStateDirty = true)
    (ht : Reported t.pendingDutyActiveHigh t) :
    Reported t.pendingDutyActiveHigh (ensureMqtt env t) :=
  reported_ensureMqttAux _
    (fun d u => reported_publishStateFromDutyAux id (fun _ _ h => h) env d u) env t hd ht

theorem reported_publishStateFromDuty (env : Env) (d : Int) (s : State) :
    Reported d (publishStateFromDuty env d s) :=
  reported_publishStateFromDutyAux _ (reported_ensureMqtt env) env d s

theorem lastStateReport_publishStateFromDuty (env : Env) (d : Int) (s : State) :
    lastStateReport (publishStateFromDuty env d s).trace = some d :=
  reported_publishStateFromDuty env d s

/-- The duty `handleFanSpeed` hands to `publishStateFromDuty`: the duty of the pending
target on a soft start, the duty just written otherwise. -/
theorem handleFanSpeed_lastStateReport (env : Env) (percent : Int) (s : State) :
    lastStateReport (handleFanSpeed env percent s).trace =
      (let requested := constrain percent 0 100
       let effective := if requested > 0 ∧ requested < PCT_MIN_RUN then PCT_MIN_RUN else requested
       let softStart : Bool :=
         decide (s.currentDuty = 0 ∧ effective > 0 ∧ effective < PCT_MIN_START)
       some (if softStart then
           percentToDuty (if requested = 0 then 0
             else if softStart then max requested PCT_MIN_RUN else s.pendingPercentAfterStart)
         else percentToDuty (if softStart then PCT_MIN_START else effective))) := by
  have h0 : (if s.cfg.mqtt_enabled && !s.mqttConnected then ensureMqtt env s else s).fan
      = s.fan := by
    split_ifs
    · exact ensureMqtt_fan env s
    · rfl
  rw [handleFanSpeed_eq, lastStateReport_publishStateFromDuty]
  generalize (if s.cfg.mqtt_enabled && !s.mqttConnected then ensureMqtt env s else s) = s0 at h0
  obtain ⟨h1, -, -, h4, -, -⟩ := (fan_eq_iff s0 s).1 h0
  simp only [fanUpdate, drivenPercent, softStartTest, h1, h4]

/-- The soft-start test of `handleFanSpeed` succeeds from a stopped fan exactly for
the requests that clamp into 1..24. -/
theorem softStart_iff (duty percent : Int) :
    (duty = 0 ∧
      (if constrain percent 0 100 > 0 ∧ constrain percent 0 100 < PCT_MIN_RUN then PCT_MIN_RUN
        else constrain percent 0 100) > 0 ∧
      (if constrain percent 0 100 > 0 ∧ constrain percent 0 100 < PCT_MIN_RUN then PCT_MIN_RUN
        else constrain percent 0 100) < PCT_MIN_START) ↔
      (duty = 0 ∧ 1 ≤ constrain percent 0 100 ∧ constrain percent 0 100 ≤ 24) := by
  unfold PCT_MIN_RUN PCT_MIN_START
  split_ifs <;> omega

/-! ## The three cases of `handleFanSpeed` -/

theorem percentToDuty_raise (c : Int) :
    percentToDuty (if c > 0 ∧ c < PCT_MIN_RUN then PCT_MIN_RUN else c) = percentToDuty c := by
  rw [percentToDuty_eq, percentToDuty_eq c]
  unfold PCT_MIN_RUN constrain
  split_ifs <;> omega

/-- Soft start: stopped fan, request clamping into 1..24. -/
theorem handleFanSpeed_fan_boost (env : Env) (percent : Int) (s : State)
    (h0 : s.currentDuty = 0) (h1 : 1 ≤ constrain percent 0 100)
    (h2 : constrain percent 0 100 ≤ 24) :
    (handleFanSpeed env percent s).fan =
      (256, 25, max (constrain percent 0 100) 15, max (constrain percent 0 100) 15,
        (millis env + 800) % 2 ^ 32, s.cfg) := by
  have hsoft := (softStart_iff s.currentDuty percent).2 ⟨h0, h1, h2⟩
  have e1 : percentToDuty PCT_MIN_START = 256 := by rw [percentToDuty_eq]; decide
  have e2 : dutyToPercent 256 = 25 := by rw [dutyToPercent_eq 256 (by decide) (by decide)]; decide
  rw [handleFanSpeed_fan]
  simp only [hsoft, decide_True, if_true, and_self, e1, e2]
  have e3 : PCT_MIN_START ≠ 0 := by decide
  have e4 : constrain percent 0 100 > 0 := by omega
  have e5 : constrain percent 0 100 ≠ 0 := by omega
  simp only [e3, e4, e5, if_true, if_false]
  rfl

/-- Stop: request clamping to 0. -/
theorem handleFanSpeed_fan_stop (env : Env) (percent : Int) (s : State)
    (h : constrain percent 0 100 = 0) :
    (handleFanSpeed env percent s).fan = (0, 0, s.lastUserPercent, 0, 0, s.cfg) := by
  have e1 : percentToDuty 0 = 0 := by rw [percentToDuty_eq]; decide
  rw [handleFanSpeed_fan]
  simp only [h]
  simp [e1, PCT_MIN_RUN]

/-- Direct drive: a request that is neither a stop nor a soft start. -/
theorem handleFanSpeed_fan_direct (env : Env) (percent : Int) (s : State)
    (h1 : 1 ≤ constrain percent 0 100)
    (h2 : s.currentDuty ≠ 0 ∨ 25 ≤ constrain percent 0 100) :
    (handleFanSpeed env percent s).fan =
      (percentToDuty percent, dutyToPercent (percentToDuty percent),
        max (constrain percent 0 100) 15, s.pendingPercentAfterStart, 0, s.cfg) := by
  have hsoft : ¬ _ := fun h => by
    have := (softStart_iff s.currentDuty percent).1 h
    omega
  have e4 : constrain percent 0 100 > 0 := by omega
  have e5 : constrain percent 0 100 ≠ 0 := by omega
  have e6 : (if constrain percent 0 100 > 0 ∧ constrain percent 0 100 < PCT_MIN_RUN
      then PCT_MIN_RUN else constrain percent 0 100) ≠ 0 := by
    unfold PCT_MIN_RUN
    split_ifs <;> omega
  rw [handleFanSpeed_fan]
  simp only [hsoft, decide_False, Bool.false_eq_true, if_false]
  simp only [e6, if_false, percentToDuty_raise, percentToDuty_constrain]
  simp only [e4, e5, if_true, if_false]
  rfl

/-! ## The soft-start poll and quiet loop iterations -/

theorem handleFanSpeed_fan_congr (env : Env) (percent : Int) (s t : State) (h : s.fan = t.fan) :
    (handleFanSpeed env percent s).fan = (handleFanSpeed env percent t).fan := by
  obtain ⟨h1, -, h3, h4, -, h6⟩ := (fan_eq_iff s t).1 h
  rw [handleFanSpeed_fan, handleFanSpeed_fan, h1, h3, h4, h6]

theorem pollSoftStart_fan_congr (env : Env) (s t : State) (h : s.fan = t.fan) :
    (pollSoftStart env s).fan = (pollSoftStart env t).fan := by
  obtain ⟨h1, h2, h3, h4, h5, h6⟩ := (fan_eq_iff s t).1 h
  unfold pollSoftStart
  rw [h2, h4, h5]
  split_ifs
  · apply handleFanSpeed_fan_congr
    rw [fan_eq_iff]
    exact ⟨h1, rfl, h3, rfl, rfl, h6⟩
  · exact h

/-- Without a pending target the poll does nothing. -/
theorem pollSoftStart_idle (env : Env) (s : State) (h : s.pendingPercentAfterStart = 0) :
    pollSoftStart env s = s := by
  unfold pollSoftStart
  rw [h]
  simp

theorem trackWifi_fan (env : Env) (s : State) : (trackWifi env s).fan = s.fan := by
  unfold trackWifi
  split_ifs <;> rfl

theorem serviceMqtt_fan (env : Env) (inb : Inbound) (s : State) (h : inb.mqttMsg = none) :
    (serviceMqtt env inb s).fan = s.fan := by
  unfold serviceMqtt
  simp only [h]
  split_ifs
  · exact ensureMqtt_fan env s
  · rfl
  · rfl
  · rfl

theorem serviceHttp_quiet (env : Env) (inb : Inbound) (s : State) (h : inb.fanReq = none) :
    serviceHttp env inb s = s := by
  unfold serviceHttp
  rw [h]

/-- A loop iteration that delivers no command changes the fan variables only through
the soft-start poll, and only when Wi-Fi is connected. -/
theorem loop_quiet_fan (env : Env) (inb : Inbound) (s : State)
    (h1 : inb.mqttMsg = none) (h2 : inb.fanReq = none) :
    (loop env inb s).fan =
      if env.wifiStatus = WL_CONNECTED then (pollSoftStart env s).fan else s.fan := by
  have h0 : (trackWifi env (if inb.linkLost then { s with mqttConnected := false } else s)).fan
      = s.fan := by
    rw [trackWifi_fan]
    split_ifs <;> rfl
  unfold loop
  simp only []
  generalize trackWifi env (if inb.linkLost then { s with mqttConnected := false } else s) = s1
    at h0
  split_ifs
  · apply pollSoftStart_fan_congr
    rw [serviceHttp_quiet env inb _ h2, serviceMqtt_fan env inb _ h1, h0]
  · exact h0

/-- Iterations that deliver no command leave the fan variables alone once no target
is pending. -/
theorem runLoop_quiet_idle (ticks : List (Env × Inbound)) (s : State)
    (hq : ∀ t ∈ ticks, t.2.mqttMsg = none ∧ t.2.fanReq = none)
    (h : s.pendingPercentAfterStart = 0) :
    (runLoop ticks s).fan = s.fan := by
  induction ticks generalizing s with
  | nil => rfl
  | cons t ts ih =>
    have ht := hq t (List.mem_cons_self _ _)
    have hstep : (loop t.1 t.2 s).fan = s.fan := by
      rw [loop_quiet_fan t.1 t.2 s ht.1 ht.2, pollSoftStart_idle t.1 s h]
      simp
    have hp : (loop t.1 t.2 s).pendingPercentAfterStart = 0 := by
      rw [((fan_eq_iff _ _).1 hstep).2.2.2.1, h]
    have := ih (loop t.1 t.2 s) (fun u hu => hq u (List.mem_cons_of_mem _ hu)) hp
    simp only [runLoop, List.foldl_cons] at this ⊢
    rw [this, hstep]

theorem fan_eq_tuple (s : State) (a b c d : Int) (e : Nat) (f : Config) :
    s.fan = (a, b, c, d, e, f) ↔ s.currentDuty = a ∧ s.currentPercent = b ∧
      s.lastUserPercent = c ∧ s.pendingPercentAfterStart = d ∧
      s.pendingPercentApplyMs = e ∧ s.cfg = f := by
  simp only [State.fan, Prod.mk.injEq]

/-- The poll at or past the deadline of a boost towards `p`: it is the call
`handleFanSpeed(p)` with the pending target cleared, and lowers the duty. -/
theorem pollSoftStart_at_deadline (env : Env) (s : State) (p : Int)
    (hp1 : 15 ≤ p) (hp2 : p ≤ 24) (hpend : s.pendingPercentAfterStart = p)
    (hduty : s.currentDuty = percentToDuty 25) (hpct : s.currentPercent = 25)
    (hnow : millis env ≥ s.pendingPercentApplyMs) :
    pollSoftStart env s =
      handleFanSpeed env p { s with pendingPercentAfterStart := 0, pendingPercentApplyMs := 0 } ∧
    (pollSoftStart env s).currentDuty = percentToDuty p ∧
    (pollSoftStart env s).currentPercent = p ∧
    (pollSoftStart env s).pendingPercentAfterStart = 0 := by
  have e1 : percentToDuty 25 = 256 := by rw [percentToDuty_eq]; decide
  have hpoll : pollSoftStart env s =
      handleFanSpeed env p { s with pendingPercentAfterStart := 0, pendingPercentApplyMs := 0 } := by
    unfold pollSoftStart
    rw [hpend, hpct, if_pos ⟨by omega, hnow, by omega⟩]
  have hc : constrain p 0 100 = p := constrain_of_mem _ _ _ (by omega) (by omega)
  have hfan := handleFanSpeed_fan_direct env p
    { s with pendingPercentAfterStart := 0, pendingPercentApplyMs := 0 }
    (by rw [hc]; omega) (Or.inl (by show s.currentDuty ≠ 0; rw [hduty, e1]; decide))
  rw [← hpoll] at hfan
  obtain ⟨f1, f2, -, f4, -, -⟩ := (fan_eq_tuple _ _ _ _ _ _ _).1 hfan
  have hround : dutyToPercent (percentToDuty p) = p := by
    have hd := percentToDuty_eq p
    rw [hc, if_neg (by omega)] at hd
    rw [dutyToPercent_eq _ (by rw [hd]; omega) (by rw [hd]; omega), hd]
    omega
  rw [hround] at f2
  exact ⟨hpoll, f1, f2, f4⟩

/-! ## Rounding and scanning lemmas -/

/-- Rounding a ratio of integers to the nearest integer (halves upwards) is an
integer division. -/
theorem round_ratio (a : Int) (b : Nat) (hb : 0 < b) :
    round ((a : ℚ) / (b : ℚ)) = (2 * a + b) / (2 * b) := by
  have hb' : (b : ℚ) ≠ 0 := by exact_mod_cast hb.ne'
  have h : (a : ℚ) / (b : ℚ) + 1 / 2 = (((2 * a + b : Int)) : ℚ) / (((2 * b : Nat)) : ℚ) := by
    push_cast
    field_simp
    ring
  rw [round_eq, h, Rat.floor_intCast_div_natCast]
  push_cast
  rfl

/-- On the duty range the single-precision `dutyToPercent` is `round(100 * v / 1023)`. -/
theorem dutyToPercent_eq_round (v : Int) (h1 : 0 ≤ v) (h2 : v ≤ 1023) :
    dutyToPercent v = round ((100 * (v : ℚ)) / 1023) := by
  have h := round_ratio (100 * v) 1023 (by decide)
  push_cast at h
  rw [h, dutyToPercent_eq v h1 h2]
  omega

/-- The decimal digits of the duties 0..1023 carry no white space at either end and
parse back, as `tryParseInt` reads them, to the number they spell. -/
theorem raw_digits_table :
    ∀ v : Nat, v < 1024 →
      trim ("RAW:".toList ++ Nat.toDigits 10 v) = "RAW:".toList ++ Nat.toDigits 10 v ∧
      tryParseInt (Nat.toDigits 10 v) = some (v : Int) := by
  decide!

/-- The `RAW:` branch of `parseSpeedCommand`: once the text after `RAW:` parses as the
integer `v`, the result is `dutyToPercent v`. -/
theorem parseSpeedCommand_raw_branch (payload ds : List Char) (v : Int)
    (htrim : trim payload = "RAW:".toList ++ ds) (hv : tryParseInt ds = some v) :
    parseSpeedCommand payload = some (dutyToPercent v) := by
  have hpre : "RAW:".toList.isPrefixOf ("RAW:".toList ++ ds) = true := by simp
  have hdrop : ("RAW:".toList ++ ds).drop 4 = ds := rfl
  unfold parseSpeedCommand
  simp only [htrim, hpre, hdrop, hv, Bool.true_or, if_true]

theorem findChar_append (ch : Char) (l r : List Char) (h : ch ∉ l) :
    findChar ch (l ++ ch :: r) = some l.length := by
  induction l with
  | nil => simp [findChar]
  | cons x t ih =>
    have hx : x ≠ ch := fun e => h (e ▸ List.mem_cons_self _ _)
    have ht : ch ∉ t := fun m => h (List.mem_cons_of_mem _ m)
    simp [findChar, hx, ih ht]

theorem drop_length_succ_append (l : List Char) (c : Char) (r : List Char) :
    (l ++ c :: r).drop (l.length + 1) = r := by
  simp

theorem dropWhile_append_stop (p : Char → Bool) (l r : List Char) (hl : ∀ c ∈ l, p c = true)
    (hr : ∀ c, r.head? = some c → p c = false) :
    (l ++ r).dropWhile p = r := by
  induction l with
  | nil =>
    cases r with
    | nil => rfl
    | cons c t => simp [List.dropWhile, hr c rfl]
  | cons x t ih =>
    simp only [List.cons_append, List.dropWhile, hl x (List.mem_cons_self _ _)]
    exact ih (fun c hc => hl c (List.mem_cons_of_mem _ hc))

theorem takeWhile_append_stop (p : Char → Bool) (l r : List Char) (hl : ∀ c ∈ l, p c = true)
    (hr : ∀ c, r.head? = some c → p c = false) :
    (l ++ r).takeWhile p = l := by
  induction l with
  | nil =>
    cases r with
    | nil => rfl
    | cons c t => simp [List.takeWhile, hr c rfl]
  | cons x t ih =>
    have h := ih (fun c hc => hl c (List.mem_cons_of_mem _ hc))
    simp only [List.cons_append, List.takeWhile, hl x (List.mem_cons_self _ _)]
    exact congrArg (List.cons x) h

/-- A digit or a decimal point is not white space. -/
theorem numChar_not_space (c : Char) (h : (isdigit c || c == '.') = true) : isspace c = false := by
  unfold isdigit at h
  unfold isspace
  simp only [Bool.or_eq_true, Bool.and_eq_true, decide_eq_true_eq, beq_iff_eq] at h
  simp only [Bool.or_eq_false_iff, beq_eq_false_iff_ne, ne_eq]
  rcases h with ⟨h1, h2⟩ | rfl
  · have : '0'.toNat ≤ c.toNat := h1
    have e : ('0' : Char).toNat = 48 := rfl
    refine ⟨⟨⟨⟨⟨?_, ?_⟩, ?_⟩, ?_⟩, ?_⟩, ?_⟩ <;> (rintro rfl; revert this; decide)
  · decide

/-- The scan of `tryParseJsonPercent` on a string in which the key found at `idx` is
followed by a colon, white space and a numeric token. -/
theorem tryParseJsonPercent_scan (s key mid ws tok rest : List Char) (idx : Nat)
    (hidx : (indexOfStr "speed".toList s).orElse (fun _ => indexOfStr "percent".toList s)
      = some idx)
    (hshape : s.drop idx = key ++ mid ++ ':' :: (ws ++ tok ++ rest))
    (hkey : ':' ∉ key) (hmid : ':' ∉ mid)
    (hws : ∀ c ∈ ws, isspace c = true)
    (htok : ∀ c ∈ tok, (isdigit c || c == '.') = true) (hne : tok ≠ [])
    (hrest : ∀ c, rest.head? = some c → (isdigit c || c == '.') = false) :
    tryParseJsonPercent s = some (roundToInt (toFloat tok)) := by
  have hcolon : indexOfCharFrom s ':' idx = some ((key ++ mid).length + idx) := by
    unfold indexOfCharFrom
    rw [hshape, findChar_append ':' (key ++ mid) _ (by simp [hkey, hmid])]
    rfl
  have hdrop : s.drop ((key ++ mid).length + idx + 1) = ws ++ tok ++ rest := by
    have : s.drop ((key ++ mid).length + idx + 1) = (s.drop idx).drop ((key ++ mid).length + 1) := by
      rw [List.drop_drop]
      congr 1
      omega
    rw [this, hshape, drop_length_succ_append]
  have hnum : ∀ c, (tok ++ rest).head? = some c → isspace c = false := by
    intro c hc
    cases tok with
    | nil => exact absurd rfl hne
    | cons x t =>
      simp only [List.cons_append, List.head?_cons, Option.some.injEq] at hc
      exact numChar_not_space c (hc ▸ htok x (List.mem_cons_self _ _))
  unfold tryParseJsonPercent
  simp only [hidx, hcolon, hdrop, List.append_assoc]
  rw [dropWhile_append_stop isspace ws (tok ++ rest) hws hnum,
    takeWhile_append_stop _ tok rest htok hrest]

/-- Rounding a decimal numeral exactly: `round(42.4999999) = 42`. -/
theorem round_42_4999999 : round ((424999999 : ℚ) / 10000000) = 42 := by
  have h := round_ratio 424999999 10000000 (by decide)
  push_cast at h
  rw [h]

/-- Whole numbers up to 100 survive `String::toFloat` and the rounding unchanged. -/
theorem roundToInt_whole_table :
    ∀ n : Nat, n < 101 →
      roundToInt ((binary64.round false n (10 ^ 0)).narrow binary32) = (n : Int) := by
  decide!

theorem toFloat_digits (tok : List Char) (hd : ∀ c ∈ tok, isdigit c = true) (hne : tok ≠ []) :
    toFloat tok = (binary64.round false (natOfDigits tok) (10 ^ 0)).narrow binary32 := by
  have h1 : tok.takeWhile isdigit = tok := by
    have := takeWhile_append_stop isdigit tok [] hd (fun c hc => by simp at hc)
    simpa using this
  have h2 : tok.dropWhile isdigit = [] := by
    have := dropWhile_append_stop isdigit tok [] hd (fun c hc => by simp at hc)
    simpa using this
  have h3 : tok.isEmpty = false := by
    cases tok with
    | nil => exact absurd rfl hne
    | cons x t => rfl
  unfold toFloat
  have e : ((none : Option Char) == some '.') = false := rfl
  simp only [h1, h2, h3, List.head?_nil, Bool.false_and, e, Bool.false_eq_true, if_false,
    List.append_nil, List.length_nil]

/-- On the duty range `dutyToPercent` yields a percent in [0,100]. -/
theorem dutyToPercent_range (v : Int) (h1 : 0 ≤ v) (h2 : v ≤ 1023) :
    0 ≤ dutyToPercent v ∧ dutyToPercent v ≤ 100 := by
  rw [dutyToPercent_eq v h1 h2]
  omega

/-- The JSON-like and bare-integer forms of `parseSpeedCommand` clamp their result:
whatever a payload without the `RAW:` prefix yields lies in [0,100]. -/
theorem parseSpeedCommand_other_forms_range (payload : List Char) (p : Int)
    (hraw : ("RAW:".toList.isPrefixOf (trim payload) ||
      "raw:".toList.isPrefixOf (trim payload)) = false)
    (h : parseSpeedCommand payload = some p) : 0 ≤ p ∧ p ≤ 100 := by
  unfold parseSpeedCommand at h
  simp only [hraw, Bool.false_eq_true, if_false] at h
  split_ifs at h
  · cases hj : tryParseJsonPercent (trim payload) with
    | none => rw [hj] at h; simp at h
    | some pct =>
      rw [hj] at h
      simp only [Option.some.injEq] at h
      rw [← h]
      exact constrain_mem _ _ _ (by decide)
  · cases hi : tryParseInt (trim payload) with
    | none => rw [hi] at h; simp at h
    | some val =>
      rw [hi] at h
      simp only [] at h
      split_ifs at h
      · simp only [Option.some.injEq] at h
        rw [← h]
        exact constrain_mem _ _ _ (by decide)
      · simp only [Option.some.injEq] at h
        rw [← h]
        have hm := constrain_mem val 0 DUTY_MAX (by decide)
        exact dutyToPercent_range _ hm.1 hm.2

/-! ## Parameter parsing -/

theorem DUTY_MAX_eq : DUTY_MAX = 1023 := by decide

/-- The tests of `parseBoolParam` on the first character `c` found after the leading
white space and the text `t` behind it. -/
theorem parseBoolParam_cons (v : List Char) (c : Char) (t : List Char)
    (h : v.dropWhile isspace = c :: t) :
    parseBoolParam (some v) =
      (if tolower c == '1' || tolower c == 't' || tolower c == 'y' then true
       else if tolower c == '0' || tolower c == 'f' || tolower c == 'n' then false
       else if tolower c == 'o' && (t.head?.map tolower) == some 'n' then true
       else false) := by
  unfold parseBoolParam
  simp only [h]

/-- What `parseBoolParam` tests: the first character after the leading white space
is, in lower case, `1`, `t` or `y`, or it is `o` followed by `n`. -/
theorem parseBoolParam_eq_true_iff (value : Option (List Char)) :
    parseBoolParam value = true ↔
      ∃ v c t, value = some v ∧ v.dropWhile isspace = c :: t ∧
        (tolower c = '1' ∨ tolower c = 't' ∨ tolower c = 'y' ∨
          (tolower c = 'o' ∧ t.head?.map tolower = some 'n')) := by
  constructor
  · intro hp
    cases value with
    | none => simp [parseBoolParam] at hp
    | some v =>
      cases h : v.dropWhile isspace with
      | nil => simp [parseBoolParam, h] at hp
      | cons c t =>
        refine ⟨v, c, t, rfl, h, ?_⟩
        rw [parseBoolParam_cons v c t h] at hp
        by_cases h1 : tolower c = '1'
        · exact Or.inl h1
        by_cases h2 : tolower c = 't'
        · exact Or.inr (Or.inl h2)
        by_cases h3 : tolower c = 'y'
        · exact Or.inr (Or.inr (Or.inl h3))
        refine Or.inr (Or.inr (Or.inr ?_))
        split_ifs at hp with h4 h5 h6
        · simp [h1, h2, h3] at h4
        · simpa using h6
  · rintro ⟨v, c, t, rfl, h, hp⟩
    rw [parseBoolParam_cons v c t h]
    rcases hp with h1 | h1 | h1 | ⟨h1, h2⟩
    · simp [h1]
    · simp [h1]
    · simp [h1]
    · simp [h1, h2]

theorem parseBoolParam_true_words (v w : List Char)
    (hw : w ∈ ["1".toList, "true".toList, "yes".toList, "on".toList])
    (hv : (v.dropWhile isspace).map tolower = w) : parseBoolParam (some v) = true := by
  rw [parseBoolParam_eq_true_iff]
  cases h : v.dropWhile isspace with
  | nil =>
    rw [h] at hv
    subst hv
    exact absurd hw (by decide)
  | cons c t =>
    refine ⟨v, c, t, rfl, h, ?_⟩
    rw [h] at hv
    simp only [List.mem_cons, List.mem_singleton, List.not_mem_nil, or_false] at hw
    rcases hw with rfl | rfl | rfl | rfl
    · exact Or.inl (List.cons.inj hv).1
    · exact Or.inr (Or.inl (List.cons.inj hv).1)
    · exact Or.inr (Or.inr (Or.inl (List.cons.inj hv).1))
    · refine Or.inr (Or.inr (Or.inr ⟨(List.cons.inj hv).1, ?_⟩))
      have ht := (List.cons.inj hv).2
      cases t with
      | nil => exact absurd ht (by decide)
      | cons x u => exact congrArg some (List.cons.inj ht).1

theorem parseBoolParam_false_words (v w : List Char)
    (hw : w ∈ ["0".toList, "false".toList, "no".toList])
    (hv : (v.dropWhile isspace).map tolower = w) : parseBoolParam (some v) = false := by
  cases h : v.dropWhile isspace with
  | nil =>
    unfold parseBoolParam
    simp only [h]
  | cons c t =>
    rw [parseBoolParam_cons v c t h]
    rw [h] at hv
    simp only [List.mem_cons, List.mem_singleton, List.not_mem_nil, or_false] at hw
    rcases hw with rfl | rfl | rfl <;> simp [(List.cons.inj hv).1]

theorem parseBoolParam_blank (v : List Char) (hv : ∀ c ∈ v, isspace c = true) :
    parseBoolParam (some v) = false := by
  have h : v.dropWhile isspace = [] := by
    have := dropWhile_append_stop isspace v [] hv (fun c hc => by simp at hc)
    simpa using this
  unfold parseBoolParam
  simp only [h]

/-! ## The bare-integer form -/

theorem isPrefixOf_singleton (c : Char) (s : List Char) :
    [c].isPrefixOf s = true ↔ s.head? = some c := by
  cases s with
  | nil => simp [List.isPrefixOf]
  | cons x t =>
    simp only [List.isPrefixOf, Bool.and_true, beq_iff_eq, List.head?_cons, Option.some.injEq]
    exact eq_comm

theorem isSuffixOf_singleton (c : Char) (s : List Char) :
    [c].isSuffixOf s = true ↔ s.getLast? = some c := by
  rw [List.isSuffixOf, List.reverse_singleton, isPrefixOf_singleton, List.head?_reverse]

/-- The trimmed string does not begin with white space. -/
theorem trim_dropWhile (p : List Char) : (trim p).dropWhile isspace = trim p := by
  have hpre : trim p <+: p.dropWhile isspace := List.rdropWhile_prefix isspace _
  cases h : trim p with
  | nil => rfl
  | cons c t =>
    have hhead : (p.dropWhile isspace).head? = some c := by
      obtain ⟨r, hr⟩ := hpre
      rw [← hr, h]
      rfl
    have hc : isspace c = false := by
      cases hd : p.dropWhile isspace with
      | nil => rw [hd] at hhead; simp at hhead
      | cons x u =>
        rw [hd] at hhead
        simp only [List.head?_cons, Option.some.injEq] at hhead
        have := List.head_dropWhile_not isspace p (by rw [hd]; simp)
        simp only [hd, List.head_cons] at this
        rw [← hhead]
        simpa using this
    simp [List.dropWhile, hc]

theorem digit_not_sign (c : Char) (h : isdigit c = true) :
    c ≠ '-' ∧ c ≠ '+' ∧ c ≠ 'R' ∧ c ≠ 'r' ∧ c ≠ '\x7b' := by
  unfold isdigit at h
  simp only [Bool.and_eq_true, decide_eq_true_eq] at h
  refine ⟨?_, ?_, ?_, ?_, ?_⟩ <;> (rintro rfl; revert h; decide)

/-- The conversion `strtol` on a non-empty run of digits: all of it is read. -/
theorem strtol_digits (ds : List Char) (hne : ds ≠ []) (hd : ∀ c ∈ ds, isdigit c = true) :
    strtol ds = some (constrain (natOfDigits ds) LONG_MIN LONG_MAX, []) := by
  obtain ⟨c, t, rfl⟩ := List.exists_cons_of_ne_nil hne
  have hc := hd c (List.mem_cons_self _ _)
  have hsp : isspace c = false := numChar_not_space c (by simp [hc])
  have h1 : (c :: t).dropWhile isspace = c :: t := by simp [List.dropWhile, hsp]
  have h2 : (c :: t).takeWhile isdigit = c :: t := by
    have := takeWhile_append_stop isdigit (c :: t) [] hd (fun x hx => by simp at hx)
    simpa using this
  have h3 : (c :: t).dropWhile isdigit = [] := by
    have := dropWhile_append_stop isdigit (c :: t) [] hd (fun x hx => by simp at hx)
    simpa using this
  obtain ⟨n1, n2, -⟩ := digit_not_sign c hc
  have e1 : (some c == some '-') = false := by simpa using n1
  have e2 : (some c == some '+') = false := by simpa using n2
  unfold strtol
  simp only [h1, List.head?_cons, e1, e2, Bool.or_self, Bool.false_eq_true, if_false, h2, h3,
    List.isEmpty_cons]

/-- When `tryParseInt` accepts a string, the string is, after its leading white
space, an optional sign followed by a non-empty run of digits. -/
theorem tryParseInt_shape (s : List Char) (v : Int) (h : tryParseInt s = some v) :
    ∃ sign ds : List Char, (sign = [] ∨ sign = ['+'] ∨ sign = ['-']) ∧ ds ≠ [] ∧
      (∀ c ∈ ds, isdigit c = true) ∧ s.dropWhile isspace = sign ++ ds := by
  unfold tryParseInt at h
  cases hs : strtol s with
  | none => rw [hs] at h; simp at h
  | some pr =>
    obtain ⟨val, rest⟩ := pr
    cases rest with
    | cons x u => rw [hs] at h; simp at h
    | nil =>
      unfold strtol at hs
      simp only [] at hs
      generalize s.dropWhile isspace = s1 at hs ⊢
      have key : ∀ s2 : List Char, (s2.takeWhile isdigit).isEmpty = false →
          s2.dropWhile isdigit = [] →
          s2.takeWhile isdigit ≠ [] ∧ (∀ c ∈ s2.takeWhile isdigit, isdigit c = true) ∧
            s2 = s2.takeWhile isdigit := by
        intro s2 hne hrest
        refine ⟨fun he => by rw [he] at hne; simp at hne,
          fun c hc => List.mem_takeWhile_imp hc, ?_⟩
        have := List.takeWhile_append_dropWhile isdigit s2
        rw [hrest, List.append_nil] at this
        exact this.symm
      by_cases hsign : (s1.head? == some '-' || s1.head? == some '+') = true
      · simp only [hsign, if_true] at hs
        by_cases hemp : (s1.tail.takeWhile isdigit).isEmpty = true
        · simp [hemp] at hs
        · simp only [hemp, Bool.false_eq_true, if_false, Option.some.injEq, Prod.mk.injEq] at hs
          obtain ⟨k1, k2, k3⟩ := key s1.tail (by simpa using hemp) hs.2
          cases s1 with
          | nil => simp at hsign
          | cons x t =>
            simp only [List.head?_cons, Bool.or_eq_true, beq_iff_eq, Option.some.injEq] at hsign
            refine ⟨[x], t.takeWhile isdigit, ?_, k1, k2, ?_⟩
            · rcases hsign with rfl | rfl
              · exact Or.inr (Or.inr rfl)
              · exact Or.inr (Or.inl rfl)
            · exact congrArg (List.cons x) k3
      · simp only [hsign, Bool.false_eq_true, if_false] at hs
        by_cases hemp : (s1.takeWhile isdigit).isEmpty = true
        · simp [hemp] at hs
        · simp only [hemp, Bool.false_eq_true, if_false, Option.some.injEq, Prod.mk.injEq] at hs
          obtain ⟨k1, k2, k3⟩ := key s1 (by simpa using hemp) hs.2
          exact ⟨[], s1.takeWhile isdigit, Or.inl rfl, k1, k2, k3⟩

/-- The third branch of `parseSpeedCommand` is reached by every string that neither
starts with `RAW:`/`raw:` nor is enclosed in braces. -/
theorem parseSpeedCommand_third_branch (payload : List Char)
    (hraw : ("RAW:".toList.isPrefixOf (trim payload) ||
      "raw:".toList.isPrefixOf (trim payload)) = false)
    (hbrace : ¬ ((trim payload).head? = some '\x7b' ∧ (trim payload).getLast? = some '\x7d')) :
    parseSpeedCommand payload =
      (match tryParseInt (trim payload) with
       | some val =>
         if val ≤ 100 then some (constrain val 0 100)
         else some (dutyToPercent (constrain val 0 DUTY_MAX))
       | none => none) := by
  have hb : ("\x7b".toList.isPrefixOf (trim payload) &&
      "\x7d".toList.isSuffixOf (trim payload)) = false := by
    rw [Bool.eq_false_iff]
    intro h
    rw [Bool.and_eq_true] at h
    exact hbrace ⟨(isPrefixOf_singleton _ _).1 h.1, (isSuffixOf_singleton _ _).1 h.2⟩
  unfold parseSpeedCommand
  simp only [hraw, hb, Bool.false_eq_true, if_false]

/-- A string of digits does not start with `RAW:` or `raw:` and is not enclosed in
braces. -/
theorem digits_third_branch (ds : List Char) (hne : ds ≠ [])
    (hd : ∀ c ∈ ds, isdigit c = true) :
    ("RAW:".toList.isPrefixOf ds || "raw:".toList.isPrefixOf ds) = false ∧
    ¬ (ds.head? = some '\x7b' ∧ ds.getLast? = some '\x7d') := by
  obtain ⟨c, t, rfl⟩ := List.exists_cons_of_ne_nil hne
  obtain ⟨-, -, n3, n4, n5⟩ := digit_not_sign c (hd c (List.mem_cons_self _ _))
  have e1 : "RAW:".toList = ['R', 'A', 'W', ':'] := rfl
  have e2 : "raw:".toList = ['r', 'a', 'w', ':'] := rfl
  refine ⟨?_, fun h => n5 ?_⟩
  · rw [e1, e2]
    simp [List.isPrefixOf, Ne.symm n3, Ne.symm n4]
  · simpa using h.1

/-! ## The MQTT session: connection attempts and republication -/

theorem connectAttempts_append_singleton (l : List Event) (e : Event) :
    connectAttempts (l ++ [e]) = connectAttempts l + (if e = Event.mqttConnect then 1 else 0) := by
  unfold connectAttempts
  rw [List.count_append, List.count_singleton]
  simp only [beq_iff_eq]

/-- The publish itself: one event on the trace, the dirty flag set exactly when the
publish failed, and the duty kept for a retry in that case. -/
theorem publishStateNow_eq (env : Env) (d : Int) (u : State) :
    publishStateNow env d u =
      { u with
        trace := u.trace ++ [Event.mqttPublishState d (constrain u.lastUserPercent 0 100)
          (env.publishOk u.trace.length)]
        mqttStateDirty := !env.publishOk u.trace.length
        pendingDutyActiveHigh :=
          if env.publishOk u.trace.length then u.pendingDutyActiveHigh else d } := by
  unfold publishStateNow markDirty State.emit
  cases h : env.publishOk u.trace.length <;> simp [h]

/-- With MQTT enabled, the tail of `ensureMqtt` after a successful connect is: mark the
client connected, put the status, subscribe and state-report events on the trace, and
publish the dirty duty if there is one, the current duty otherwise. -/
theorem connectSucceeded_eq (env : Env) (u : State) (he : u.cfg.mqtt_enabled = true) :
    connectSucceeded (publishStateFromDutyAux id env) u =
      publishStateNow env (if u.mqttStateDirty then u.pendingDutyActiveHigh else u.currentDuty)
        { u with
          mqttConnected := true
          mqttWasConnected := true
          trace := u.trace ++ [Event.mqttPublishStatus "online".toList] ++ [Event.mqttSubscribe]
            ++ [Event.stateReport
              (if u.mqttStateDirty then u.pendingDutyActiveHigh else u.currentDuty)] } := by
  obtain ⟨⟨en, host, port, user, pass, ct, st, stt, spd, don⟩, conn, was, last, lw, dirty,
    pend, pps, pam, cd, cp, lu, tr⟩ := u
  simp only [] at he
  subst he
  rfl

/-- An enabled, disconnected client past the retry interval with Wi-Fi up: `ensureMqtt`
records the attempt and calls `mqtt.connect`. -/
theorem ensureMqtt_attempt (env : Env) (s : State)
    (he : s.cfg.mqtt_enabled = true) (hc : s.mqttConnected = false)
    (hthr : ¬ ((millis env : Int) - (s.lastMqttAttemptMs : Int)) % 2 ^ 32
      < (MQTT_RETRY_INTERVAL_MS : Int))
    (hw : env.wifiStatus = WL_CONNECTED) :
    ensureMqtt env s =
      if env.connectOk then
        connectSucceeded (publishStateFromDutyAux id env)
          { s with lastMqttAttemptMs := millis env, mqttWasConnected := false,
                   trace := s.trace ++ [Event.mqttConnect] }
      else
        { s with lastMqttAttemptMs := millis env, mqttWasConnected := false,
                 trace := s.trace ++ [Event.mqttConnect] } := by
  unfold ensureMqtt ensureMqttAux
  simp only [he, hc, hthr, hw, Bool.not_true, Bool.false_eq_true, if_false, ne_eq,
    not_true_eq_false, State.emit]

/-- The whole reconnect, up to the publish: what `ensureMqtt` does when the connect
succeeds. -/
theorem ensureMqtt_reconnect (env : Env) (s : State)
    (he : s.cfg.mqtt_enabled = true) (hc : s.mqttConnected = false)
    (hthr : ¬ ((millis env : Int) - (s.lastMqttAttemptMs : Int)) % 2 ^ 32
      < (MQTT_RETRY_INTERVAL_MS : Int))
    (hw : env.wifiStatus = WL_CONNECTED) (hok : env.connectOk = true) :
    ensureMqtt env s =
      publishStateNow env (if s.mqttStateDirty then s.pendingDutyActiveHigh else s.currentDuty)
        { s with
          lastMqttAttemptMs := millis env
          mqttConnected := true
          mqttWasConnected := true
          trace := s.trace ++ [Event.mqttConnect] ++ [Event.mqttPublishStatus "online".toList]
            ++ [Event.mqttSubscribe]
            ++ [Event.stateReport
              (if s.mqttStateDirty then s.pendingDutyActiveHigh else s.currentDuty)] } := by
  rw [ensureMqtt_attempt env s he hc hthr hw, if_pos hok]
  exact connectSucceeded_eq env _ he

/-- The trace and the flags after a reconnect. -/
theorem ensureMqtt_reconnect_fields (env : Env) (s : State)
    (he : s.cfg.mqtt_enabled = true) (hc : s.mqttConnected = false)
    (hthr : ¬ ((millis env : Int) - (s.lastMqttAttemptMs : Int)) % 2 ^ 32
      < (MQTT_RETRY_INTERVAL_MS : Int))
    (hw : env.wifiStatus = WL_CONNECTED) (hok : env.connectOk = true) :
    (ensureMqtt env s).trace =
      s.trace ++ [Event.mqttConnect, Event.mqttPublishStatus "online".toList,
        Event.mqttSubscribe,
        Event.stateReport (if s.mqttStateDirty then s.pendingDutyActiveHigh else s.currentDuty),
        Event.mqttPublishState
          (if s.mqttStateDirty then s.pendingDutyActiveHigh else s.currentDuty)
          (constrain s.lastUserPercent 0 100) (env.publishOk (s.trace.length + 4))] ∧
    (ensureMqtt env s).mqttStateDirty = !env.publishOk (s.trace.length + 4) ∧
    (ensureMqtt env s).mqttConnected = true ∧
    (ensureMqtt env s).lastMqttAttemptMs = millis env ∧
    (ensureMqtt env s).cfg = s.cfg := by
  rw [ensureMqtt_reconnect env s he hc hthr hw hok, publishStateNow_eq]
  have hlen : (s.trace ++ [Event.mqttConnect] ++ [Event.mqttPublishStatus "online".toList]
      ++ [Event.mqttSubscribe]
      ++ [Event.stateReport
        (if s.mqttStateDirty then s.pendingDutyActiveHigh else s.currentDuty)]).length
      = s.trace.length + 4 := by
    simp only [List.length_append, List.length_singleton]
  refine ⟨?_, ?_, rfl, rfl, rfl⟩
  · show _ ++ [Event.mqttPublishState _ _ (env.publishOk (List.length _))] = _
    rw [hlen]
    simp only [List.append_assoc, List.singleton_append, List.cons_append, List.nil_append]
  · show (!env.publishOk (List.length _)) = _
    rw [hlen]

/-- A disabled client: `ensureMqtt` returns at once. -/
theorem ensureMqtt_disabled (env : Env) (s : State) (he : s.cfg.mqtt_enabled = false) :
    ensureMqtt env s = s := by
  unfold ensureMqtt ensureMqttAux
  simp only [he, Bool.not_false, if_true]

/-- A connected client: `ensureMqtt` only notes the connection. -/
theorem ensureMqtt_connected (env : Env) (s : State) (he : s.cfg.mqtt_enabled = true)
    (hc : s.mqttConnected = true) :
    ensureMqtt env s = { s with mqttWasConnected := true } := by
  unfold ensureMqtt ensureMqttAux
  simp only [he, hc, Bool.not_true, Bool.false_eq_true, if_false, if_true]

/-- Within the retry interval: `ensureMqtt` returns without changing the state. -/
theorem ensureMqtt_throttled (env : Env) (s : State) (he : s.cfg.mqtt_enabled = true)
    (hc : s.mqttConnected = false)
    (hthr : ((millis env : Int) - (s.lastMqttAttemptMs : Int)) % 2 ^ 32
      < (MQTT_RETRY_INTERVAL_MS : Int)) :
    ensureMqtt env s = s := by
  unfold ensureMqtt ensureMqttAux
  simp only [he, hc, hthr, Bool.not_true, Bool.false_eq_true, if_false, if_true]

/-- Without Wi-Fi: `ensureMqtt` records the time and gives up before `mqtt.connect`. -/
theorem ensureMqtt_no_wifi (env : Env) (s : State) (he : s.cfg.mqtt_enabled = true)
    (hc : s.mqttConnected = false)
    (hthr : ¬ ((millis env : Int) - (s.lastMqttAttemptMs : Int)) % 2 ^ 32
      < (MQTT_RETRY_INTERVAL_MS : Int))
    (hw : env.wifiStatus ≠ WL_CONNECTED) :
    ensureMqtt env s = { s with lastMqttAttemptMs := millis env, mqttWasConnected := false } := by
  unfold ensureMqtt ensureMqttAux
  simp only [he, hc, hthr, hw, Bool.not_true, Bool.false_eq_true, if_false, ne_eq,
    not_false_eq_true, if_true]

/-- A call of `ensureMqtt` within the retry interval after the recorded last attempt
does not call `mqtt.connect`, whatever else the state holds. -/
theorem ensureMqtt_no_attempt (env : Env) (s : State)
    (hthr : ((millis env : Int) - (s.lastMqttAttemptMs : Int)) % 2 ^ 32
      < (MQTT_RETRY_INTERVAL_MS : Int)) :
    connectAttempts (ensureMqtt env s).trace = connectAttempts s.trace := by
  cases he : s.cfg.mqtt_enabled with
  | false => rw [ensureMqtt_disabled env s he]
  | true =>
    cases hc : s.mqttConnected with
    | true => rw [ensureMqtt_connected env s he hc]
    | false => rw [ensureMqtt_throttled env s he hc hthr]

/-- Every call of `ensureMqtt` either calls `mqtt.connect` not at all, or once, and
then it has recorded the time of the call as the last attempt. -/
theorem ensureMqtt_attempts (env : Env) (s : State) :
    connectAttempts (ensureMqtt env s).trace = connectAttempts s.trace ∨
    (connectAttempts (ensureMqtt env s).trace = connectAttempts s.trace + 1 ∧
      (ensureMqtt env s).lastMqttAttemptMs = millis env) := by
  cases he : s.cfg.mqtt_enabled with
  | false => exact Or.inl (by rw [ensureMqtt_disabled env s he])
  | true =>
    cases hc : s.mqttConnected with
    | true => exact Or.inl (by rw [ensureMqtt_connected env s he hc])
    | false =>
      by_cases hthr : ((millis env : Int) - (s.lastMqttAttemptMs : Int)) % 2 ^ 32
          < (MQTT_RETRY_INTERVAL_MS : Int)
      · exact Or.inl (by rw [ensureMqtt_throttled env s he hc hthr])
      · by_cases hw : env.wifiStatus = WL_CONNECTED
        · right
          cases hok : env.connectOk with
          | false =>
            rw [ensureMqtt_attempt env s he hc hthr hw, hok]
            refine ⟨?_, rfl⟩
            show connectAttempts (s.trace ++ [Event.mqttConnect]) = _
            rw [connectAttempts_append_singleton, if_pos rfl]
          | true =>
            obtain ⟨h1, -, -, h4, -⟩ := ensureMqtt_reconnect_fields env s he hc hthr hw hok
            refine ⟨?_, h4⟩
            rw [h1]
            unfold connectAttempts
            rw [List.count_append]
            simp only [List.count_cons, List.count_nil, beq_self_eq_true, if_true]
            rfl
        · exact Or.inl (by rw [ensureMqtt_no_wifi env s he hc hthr hw])

/-- The unsigned difference of two clock readings less than the retry interval apart. -/
theorem millis_sub_lt (env1 env2 : Env) (h1 : env1.now ≤ env2.now)
    (h2 : env2.now - env1.now < MQTT_RETRY_INTERVAL_MS) :
    ((millis env2 : Int) - (millis env1 : Int)) % 2 ^ 32 < (MQTT_RETRY_INTERVAL_MS : Int) := by
  unfold millis
  unfold MQTT_RETRY_INTERVAL_MS at h2 ⊢
  have e : ((2 : Int) ^ 32) = 4294967296 := by norm_num
  have e2 : ((2 : Nat) ^ 32) = 4294967296 := by norm_num
  rw [e, e2]
  omega

/-- While the client stays connected, calls of `ensureMqtt` put nothing on the trace. -/
theorem ensureMqtt_connected_trace (env : Env) (s : State) (hc : s.mqttConnected = true) :
    (ensureMqtt env s).trace = s.trace ∧ (ensureMqtt env s).mqttConnected = true ∧
    (ensureMqtt env s).mqttStateDirty = s.mqttStateDirty := by
  cases he : s.cfg.mqtt_enabled with
  | false => rw [ensureMqtt_disabled env s he]; exact ⟨rfl, hc, rfl⟩
  | true => rw [ensureMqtt_connected env s he hc]; exact ⟨rfl, hc, rfl⟩

/-- The same over any number of calls. -/
theorem ensureMqtt_connected_foldl (envs : List Env) (s : State) (hc : s.mqttConnected = true) :
    (envs.foldl (fun st e => ensureMqtt e st) s).trace = s.trace ∧
    (envs.foldl (fun st e => ensureMqtt e st) s).mqttStateDirty = s.mqttStateDirty := by
  induction envs generalizing s with
  | nil => exact ⟨rfl, rfl⟩
  | cons e es ih =>
    obtain ⟨h1, h2, h3⟩ := ensureMqtt_connected_trace e s hc
    obtain ⟨i1, i2⟩ := ih (ensureMqtt e s) h2
    exact ⟨i1.trans h1, i2.trans h3⟩

/-- A connected, enabled client: `publishStateFromDuty` records the report and
publishes. -/
theorem publishStateFromDuty_connected (env : Env) (d : Int) (s : State)
    (he : s.cfg.mqtt_enabled = true) (hc : s.mqttConnected = true) :
    publishStateFromDuty env d s = publishStateNow env d (s.emit (Event.stateReport d)) := by
  unfold publishStateFromDuty publishStateFromDutyAux
  have h1 : (s.emit (Event.stateReport d)).cfg.mqtt_enabled = true := he
  have h2 : (s.emit (Event.stateReport d)).mqttConnected = true := hc
  simp only [h1, h2, Bool.not_true, Bool.false_eq_true, if_false, if_true]

/-- The state publications in a trace extended by the events of a reconnect. -/
theorem statePublishes_reconnect (tr : List Event) (st : List Char) (d sp : Int) (ok : Bool) :
    statePublishes (tr ++ [Event.mqttConnect, Event.mqttPublishStatus st, Event.mqttSubscribe,
      Event.stateReport d, Event.mqttPublishState d sp ok]) = statePublishes tr ++ [d] := by
  unfold statePublishes
  rw [List.filterMap_append]
  rfl

/-! ## The range invariant of the fan variables -/

/-- Every duty `percentToDuty` yields is in the duty range, and the percent
`dutyToPercent` recovers from it is 0 or in [15,100]. -/
theorem percentToDuty_range (e : Int) :
    (0 ≤ percentToDuty e ∧ percentToDuty e ≤ 1023) ∧
    (dutyToPercent (percentToDuty e) = 0 ∨
      (15 ≤ dutyToPercent (percentToDuty e) ∧ dutyToPercent (percentToDuty e) ≤ 100)) := by
  obtain ⟨c1, c2⟩ := constrain_mem e 0 100 (by decide)
  have hd := percentToDuty_eq e
  generalize constrain e 0 100 = c at c1 c2 hd
  have hb : 0 ≤ percentToDuty e ∧ percentToDuty e ≤ 1023 := by
    rw [hd]
    split_ifs <;> omega
  refine ⟨hb, ?_⟩
  rw [dutyToPercent_eq _ hb.1 hb.2, hd]
  split_ifs <;> omega

/-- The duty, percent and setpoint `handleFanSpeed` leaves, from any state. -/
theorem handleFanSpeed_ranges (env : Env) (percent : Int) (s : State) :
    (0 ≤ (handleFanSpeed env percent s).currentDuty ∧
      (handleFanSpeed env percent s).currentDuty ≤ 1023) ∧
    ((handleFanSpeed env percent s).currentPercent = 0 ∨
      (15 ≤ (handleFanSpeed env percent s).currentPercent ∧
        (handleFanSpeed env percent s).currentPercent ≤ 100)) ∧
    ((handleFanSpeed env percent s).lastUserPercent = s.lastUserPercent ∨
      (15 ≤ (handleFanSpeed env percent s).lastUserPercent ∧
        (handleFanSpeed env percent s).lastUserPercent ≤ 100)) := by
  obtain ⟨f1, f2, f3, -⟩ := (fan_eq_tuple _ _ _ _ _ _ _).1 (handleFanSpeed_fan env percent s)
  obtain ⟨c1, c2⟩ := constrain_mem percent 0 100 (by decide)
  refine ⟨?_, ?_, ?_⟩
  · rw [f1]
    exact (percentToDuty_range _).1
  · have f2' : (handleFanSpeed env percent s).currentPercent =
        if drivenPercent percent s = 0 then 0
        else dutyToPercent (percentToDuty (drivenPercent percent s)) := f2
    rw [f2']
    generalize drivenPercent percent s = e
    by_cases h : e = 0
    · rw [if_pos h]
      exact Or.inl rfl
    · rw [if_neg h]
      exact (percentToDuty_range e).2
  · rw [f3]
    unfold PCT_MIN_RUN
    by_cases h : constrain percent 0 100 > 0
    · rw [if_pos h]
      right
      omega
    · rw [if_neg h]
      exact Or.inl rfl

/-- The function `handleFanSpeed` preserves the invariant. -/
theorem handleFanSpeed_fanInv (env : Env) (percent : Int) (s : State) (hs : FanInv s) :
    FanInv (handleFanSpeed env percent s) := by
  obtain ⟨r1, r2, r3⟩ := handleFanSpeed_ranges env percent s
  refine ⟨r1, r2, ?_⟩
  rcases r3 with h | h
  · rw [h]
    exact hs.2.2
  · exact Or.inr h

/-- With Wi-Fi not connected an iteration of `loop` leaves every fan variable as it
was, whatever is inbound: the soft-start poll is not reached. -/
theorem loop_offline_fan (env : Env) (inb : Inbound) (s : State)
    (hw : env.wifiStatus ≠ WL_CONNECTED) : (loop env inb s).fan = s.fan := by
  have h0 : (trackWifi env (if inb.linkLost then { s with mqttConnected := false } else s)).fan
      = s.fan := by
    rw [trackWifi_fan]
    split_ifs <;> rfl
  unfold loop
  simp only [hw, if_false]
  exact h0

/-! ## Claims -/

/-- C1: from a stopped fan (`currentDuty = 0`), a request whose clamp to [0,100] lies
in 1..24 makes `handleFanSpeed`, called when `millis()` reads `now`, write the boost
duty `percentToDuty(25) = 256` (of `DUTY_MAX = 1023`), record the pending target
`max(requested, 15)` and the deadline `now + 800` (an `unsigned long` sum, so taken
modulo `2^32`, and literally `now + 800` whenever that fits), and call the state
publication with the duty of the pending target, which is not the boost duty. -/
theorem handleFanSpeed_soft_start (env : Env) (percent : Int) (s : State)
    (h0 : s.currentDuty = 0) (h1 : 1 ≤ constrain percent 0 100)
    (h2 : constrain percent 0 100 ≤ 24) :
    (handleFanSpeed env percent s).currentDuty = percentToDuty 25 ∧
    percentToDuty 25 = 256 ∧ DUTY_MAX = 1023 ∧
    (handleFanSpeed env percent s).pendingPercentAfterStart = max (constrain percent 0 100) 15 ∧
    (handleFanSpeed env percent s).pendingPercentApplyMs = (millis env + 800) % 2 ^ 32 ∧
    (millis env + 800 < 2 ^ 32 →
      (handleFanSpeed env percent s).pendingPercentApplyMs = millis env + 800) ∧
    lastStateReport (handleFanSpeed env percent s).trace =
      some (percentToDuty (handleFanSpeed env percent s).pendingPercentAfterStart) ∧
    percentToDuty (handleFanSpeed env percent s).pendingPercentAfterStart ≠ percentToDuty 25 := by
  obtain ⟨f1, -, -, f4, f5, -⟩ :=
    (fan_eq_tuple _ _ _ _ _ _ _).1 (handleFanSpeed_fan_boost env percent s h0 h1 h2)
  have e1 : percentToDuty 25 = 256 := by rw [percentToDuty_eq]; decide
  have htr := handleFanSpeed_lastStateReport env percent s
  simp only [(softStart_iff s.currentDuty percent).2 ⟨h0, h1, h2⟩, and_self, decide_True, if_true]
    at htr
  have e5 : constrain percent 0 100 ≠ 0 := by omega
  simp only [e5, if_false] at htr
  refine ⟨by rw [f1, e1], e1, by decide, f4, f5, fun h => by rw [f5, Nat.mod_eq_of_lt h],
    by rw [htr, f4, PCT_MIN_RUN], ?_⟩
  rw [f4, e1, percentToDuty_eq]
  have hm := constrain_mem (max (constrain percent 0 100) 15) 0 100 (by decide)
  have hc : constrain (max (constrain percent 0 100) 15) 0 100 = max (constrain percent 0 100) 15 :=
    constrain_of_mem _ _ _ (by omega) (by omega)
  rw [hc]
  split_ifs <;> omega

/-- C1, witness: from the boot state, `handleFanSpeed(20)` at `now = 6000` writes duty
256, with pending target 20 and deadline 6800. -/
theorem handleFanSpeed_soft_start_witness :
    (handleFanSpeed (Env.online 6000) 20 (State.boot Config.withMqtt)).currentDuty = 256 ∧
    (handleFanSpeed (Env.online 6000) 20 (State.boot Config.withMqtt)).pendingPercentAfterStart
      = 20 ∧
    (handleFanSpeed (Env.online 6000) 20 (State.boot Config.withMqtt)).pendingPercentApplyMs
      = 6800 :=
  have h := handleFanSpeed_soft_start (Env.online 6000) 20 (State.boot Config.withMqtt) rfl
    (by decide) (by decide)
  ⟨h.1.trans h.2.1, h.2.2.2.1, h.2.2.2.2.2.1 (by decide)⟩

/-- C2: in a state reached by a soft start (pending target `p` in 15..24, duty
`percentToDuty(25)`, percent 25), the soft-start poll at a clock reading at or past
the deadline is the call `handleFanSpeed(p)` on the state with the pending target and
deadline cleared; it leaves `currentDuty = percentToDuty(p)` and no pending target; a
loop iteration with Wi-Fi connected that delivers no command does the same to the fan
variables; and any number of later iterations that deliver no command leave
`currentDuty` and `currentPercent` as that poll left them. -/
theorem pollSoftStart_drops_once (env : Env) (s : State) (p : Int)
    (hp1 : 15 ≤ p) (hp2 : p ≤ 24) (hpend : s.pendingPercentAfterStart = p)
    (hduty : s.currentDuty = percentToDuty 25) (hpct : s.currentPercent = 25)
    (hnow : millis env ≥ s.pendingPercentApplyMs) :
    pollSoftStart env s =
      handleFanSpeed env p { s with pendingPercentAfterStart := 0, pendingPercentApplyMs := 0 } ∧
    (pollSoftStart env s).currentDuty = percentToDuty p ∧
    (pollSoftStart env s).currentPercent = p ∧
    (pollSoftStart env s).pendingPercentAfterStart = 0 ∧
    (∀ inb : Inbound, env.wifiStatus = WL_CONNECTED → inb.mqttMsg = none → inb.fanReq = none →
      (loop env inb s).fan = (pollSoftStart env s).fan) ∧
    (∀ ticks : List (Env × Inbound), (∀ t ∈ ticks, t.2.mqttMsg = none ∧ t.2.fanReq = none) →
      (runLoop ticks (pollSoftStart env s)).currentDuty = percentToDuty p ∧
      (runLoop ticks (pollSoftStart env s)).currentPercent = p) := by
  obtain ⟨hpoll, f1, f2, f4⟩ := pollSoftStart_at_deadline env s p hp1 hp2 hpend hduty hpct hnow
  refine ⟨hpoll, f1, f2, f4, ?_, ?_⟩
  · intro inb hw h1 h2
    rw [loop_quiet_fan env inb s h1 h2, if_pos hw]
  · intro ticks hq
    obtain ⟨g1, g2, -⟩ := (fan_eq_iff _ _).1 (runLoop_quiet_idle ticks (pollSoftStart env s) hq f4)
    exact ⟨g1.trans f1, g2.trans f2⟩

/-- C2, witness: `handleFanSpeed(20)` from the boot state at 6000 ms gives duty 256;
the poll at 6800 ms gives duty 205; two further quiet iterations keep 205. -/
theorem pollSoftStart_drops_once_witness :
    (handleFanSpeed (Env.online 6000) 20 (State.boot Config.withMqtt)).currentDuty = 256 ∧
    (pollSoftStart (Env.online 6800)
      (handleFanSpeed (Env.online 6000) 20 (State.boot Config.withMqtt))).currentDuty = 205 ∧
    (runLoop [(Env.online 6802, Inbound.quiet), (Env.offline 6804, Inbound.quiet)]
      (pollSoftStart (Env.online 6800)
        (handleFanSpeed (Env.online 6000) 20 (State.boot Config.withMqtt)))).currentDuty = 205 :=
  have h := pollSoftStart_drops_once (Env.online 6800)
    (handleFanSpeed (Env.online 6000) 20 (State.boot Config.withMqtt)) 20
    (by decide) (by decide) (by decide) (by decide) (by decide) (by decide)
  ⟨by decide, h.2.1.trans (by decide),
    (h.2.2.2.2.2 [(Env.online 6802, Inbound.quiet), (Env.offline 6804, Inbound.quiet)]
      (by decide)).1.trans (by decide)⟩

/-- C3: from every state, `handleFanSpeed(0)` leaves `currentDuty = 0` and
`currentPercent = 0` and cancels the pending boost (target 0, deadline 0); a
soft-start poll that follows, at any clock reading, changes nothing, and loop
iterations that deliver no command keep the fan stopped. -/
theorem handleFanSpeed_zero_stops (env : Env) (s : State) :
    (handleFanSpeed env 0 s).currentDuty = 0 ∧
    (handleFanSpeed env 0 s).currentPercent = 0 ∧
    (handleFanSpeed env 0 s).pendingPercentAfterStart = 0 ∧
    (handleFanSpeed env 0 s).pendingPercentApplyMs = 0 ∧
    (∀ env2 : Env, pollSoftStart env2 (handleFanSpeed env 0 s) = handleFanSpeed env 0 s) ∧
    (∀ ticks : List (Env × Inbound), (∀ t ∈ ticks, t.2.mqttMsg = none ∧ t.2.fanReq = none) →
      (runLoop ticks (handleFanSpeed env 0 s)).currentDuty = 0 ∧
      (runLoop ticks (handleFanSpeed env 0 s)).currentPercent = 0) := by
  obtain ⟨f1, f2, -, f4, f5, -⟩ :=
    (fan_eq_tuple _ _ _ _ _ _ _).1 (handleFanSpeed_fan_stop env 0 s (by decide))
  refine ⟨f1, f2, f4, f5, fun env2 => pollSoftStart_idle env2 _ f4, ?_⟩
  intro ticks hq
  obtain ⟨g1, g2, -⟩ := (fan_eq_iff _ _).1 (runLoop_quiet_idle ticks _ hq f4)
  exact ⟨g1.trans f1, g2.trans f2⟩

/-- C3, witness: a fan boosting towards 20 % is stopped by `handleFanSpeed(0)`, and
stays stopped over the iteration at the old deadline. -/
theorem handleFanSpeed_zero_stops_witness :
    (runLoop [(Env.online 6800, Inbound.quiet)]
      (handleFanSpeed (Env.online 6100) 0
        (handleFanSpeed (Env.online 6000) 20 (State.boot Config.withMqtt)))).currentDuty = 0 :=
  ((handleFanSpeed_zero_stops (Env.online 6100)
      (handleFanSpeed (Env.online 6000) 20 (State.boot Config.withMqtt))).2.2.2.2.2
    [(Env.online 6800, Inbound.quiet)] (by decide)).1

/-- C4, the code at the claim's own scenario: from the boot state `handleFanSpeed(15)`
at 6000 ms starts a boost (duty 256, pending 15, deadline 6800); `handleFanSpeed(80)`
at 6100 ms, before the deadline, writes `percentToDuty(80) = 818` and zeroes the
deadline but keeps the pending target 15; the loop iteration at 6102 ms then applies
the old target, and the duty falls to `percentToDuty(15) = 153`. -/
theorem handleFanSpeed_keeps_stale_pending :
    (handleFanSpeed (Env.online 6000) 15 (State.boot Config.withMqtt)).currentDuty = 256 ∧
    (handleFanSpeed (Env.online 6000) 15
      (State.boot Config.withMqtt)).pendingPercentAfterStart = 15 ∧
    (handleFanSpeed (Env.online 6000) 15
      (State.boot Config.withMqtt)).pendingPercentApplyMs = 6800 ∧
    (handleFanSpeed (Env.online 6100) 80
      (handleFanSpeed (Env.online 6000) 15 (State.boot Config.withMqtt))).currentDuty
      = percentToDuty 80 ∧
    percentToDuty 80 = 818 ∧
    (handleFanSpeed (Env.online 6100) 80
      (handleFanSpeed (Env.online 6000) 15
        (State.boot Config.withMqtt))).pendingPercentAfterStart = 15 ∧
    (handleFanSpeed (Env.online 6100) 80
      (handleFanSpeed (Env.online 6000) 15
        (State.boot Config.withMqtt))).pendingPercentApplyMs = 0 ∧
    (loop (Env.online 6102) Inbound.quiet
      (handleFanSpeed (Env.online 6100) 80
        (handleFanSpeed (Env.online 6000) 15 (State.boot Config.withMqtt)))).currentDuty
      = 153 ∧
    percentToDuty 15 = 153 := by
  decide

/-- C5, counterexample: from the boot state (fan stopped) `handleFanSpeed(5)` leaves
the boost duty 256, not `percentToDuty(15) = 153`. -/
theorem handleFanSpeed_five_from_stopped :
    (handleFanSpeed (Env.online 6000) 5 (State.boot Config.factory)).currentDuty = 256 ∧
    percentToDuty 15 = 153 ∧
    (handleFanSpeed (Env.online 6000) 5 (State.boot Config.factory)).currentDuty
      ≠ percentToDuty 15 := by
  decide

/-- C5, amended: `handleFanSpeed(5)` never leaves the unraised 5 % duty (51 of 1023).
From a running fan (`currentDuty ≠ 0`) it leaves `percentToDuty(15) = 153`; from a
stopped fan it leaves the boost duty `percentToDuty(25) = 256` with pending target 15,
and the soft-start poll at or after the deadline then lowers the duty to 153. -/
theorem handleFanSpeed_five_raised (env : Env) (s : State) :
    percentToDuty 15 = 153 ∧ percentToDuty 25 = 256 ∧
    (handleFanSpeed env 5 s).currentDuty ≠ 51 ∧
    (s.currentDuty ≠ 0 → (handleFanSpeed env 5 s).currentDuty = percentToDuty 15) ∧
    (s.currentDuty = 0 →
      (handleFanSpeed env 5 s).currentDuty = percentToDuty 25 ∧
      (handleFanSpeed env 5 s).pendingPercentAfterStart = 15 ∧
      ∀ env2 : Env, millis env2 ≥ (handleFanSpeed env 5 s).pendingPercentApplyMs →
        (pollSoftStart env2 (handleFanSpeed env 5 s)).currentDuty = percentToDuty 15) := by
  have e15 : percentToDuty 15 = 153 := by rw [percentToDuty_eq]; decide
  have e25 : percentToDuty 25 = 256 := by rw [percentToDuty_eq]; decide
  have e5 : percentToDuty 5 = 153 := by rw [percentToDuty_eq]; decide
  have hrun : s.currentDuty ≠ 0 → (handleFanSpeed env 5 s).currentDuty = percentToDuty 15 := by
    intro h
    obtain ⟨f1, -⟩ := (fan_eq_tuple _ _ _ _ _ _ _).1
      (handleFanSpeed_fan_direct env 5 s (by decide) (Or.inl h))
    rw [f1, e5, e15]
  have hstop : s.currentDuty = 0 → (handleFanSpeed env 5 s).fan =
      (256, 25, 15, 15, (millis env + 800) % 2 ^ 32, s.cfg) := fun h =>
    handleFanSpeed_fan_boost env 5 s h (by decide) (by decide)
  refine ⟨e15, e25, ?_, hrun, ?_⟩
  · by_cases h : s.currentDuty = 0
    · rw [((fan_eq_tuple _ _ _ _ _ _ _).1 (hstop h)).1]
      decide
    · rw [hrun h, e15]
      decide
  · intro h
    obtain ⟨f1, f2, -, f4, -, -⟩ := (fan_eq_tuple _ _ _ _ _ _ _).1 (hstop h)
    refine ⟨by rw [f1, e25], f4, fun env2 hnow => ?_⟩
    exact (pollSoftStart_at_deadline env2 (handleFanSpeed env 5 s) 15 (by decide) (by decide)
      f4 (by rw [f1, e25]) f2 hnow).2.1

/-- C5 amended, witness: both branches at concrete states. -/
theorem handleFanSpeed_five_raised_witness :
    (handleFanSpeed (Env.online 9000) 5
      (handleFanSpeed (Env.online 6000) 80 (State.boot Config.factory))).currentDuty = 153 ∧
    (pollSoftStart (Env.online 6800)
      (handleFanSpeed (Env.online 6000) 5 (State.boot Config.factory))).currentDuty = 153 :=
  ⟨((handleFanSpeed_five_raised (Env.online 9000)
      (handleFanSpeed (Env.online 6000) 80 (State.boot Config.factory))).2.2.2.1
        (by decide)).trans (by decide),
    (((handleFanSpeed_five_raised (Env.online 6000) (State.boot Config.factory)).2.2.2.2
        rfl).2.2 (Env.online 6800) (by decide)).trans (by decide)⟩

/-- C6: for every integer `pct` in 1..100, the percent recovered from the duty,
`DutyToPercent(percentToDuty(pct))` with `DutyToPercent(d) = round(100 * d / 1023)`,
is within 1 of `max(pct, 15)` (it is in fact equal to it); and `percentToDuty(0) = 0`. -/
theorem dutyToPercent_percentToDuty (pct : Int) (h1 : 1 ≤ pct) (h2 : pct ≤ 100) :
    dutyToPercent (percentToDuty pct) = round ((100 * (percentToDuty pct : ℚ)) / 1023) ∧
    |dutyToPercent (percentToDuty pct) - max pct 15| ≤ 1 ∧
    dutyToPercent (percentToDuty pct) = max pct 15 ∧
    percentToDuty 0 = 0 := by
  have hc : constrain pct 0 100 = pct := constrain_of_mem _ _ _ (by omega) h2
  have hd := percentToDuty_eq pct
  rw [hc] at hd
  have hb : 0 ≤ percentToDuty pct ∧ percentToDuty pct ≤ 1023 := by
    rw [hd]
    split_ifs <;> omega
  have heq : dutyToPercent (percentToDuty pct) = max pct 15 := by
    rw [dutyToPercent_eq _ hb.1 hb.2, hd]
    split_ifs <;> omega
  refine ⟨dutyToPercent_eq_round _ hb.1 hb.2, ?_, heq, by rw [percentToDuty_eq]; decide⟩
  rw [heq, sub_self]
  decide

/-- C6, witness: 20 % maps to duty 205, which maps back to 20 %. -/
theorem dutyToPercent_percentToDuty_witness :
    percentToDuty 20 = 205 ∧ dutyToPercent (percentToDuty 20) = 20 :=
  ⟨by decide, by
    have h := (dutyToPercent_percentToDuty 20 (by decide) (by decide)).2.2.1
    exact h.trans (by decide)⟩

/-- C7, the code on raw commands outside the duty range: `RAW:2000` is accepted with
percent 196 and `RAW:-100` with percent -10, neither in [0,100]; the bare-integer
form of the same number, `2000`, is clamped to the duty range first and gives 100
(the other two forms always clamp: `parseSpeedCommand_other_forms_range`). -/
theorem parseSpeedCommand_raw_unclamped :
    parseSpeedCommand "RAW:2000".toList = some 196 ∧
    parseSpeedCommand "RAW:-100".toList = some (-10) ∧
    parseSpeedCommand "2000".toList = some 100 := by
  decide

/-- C8, counterexample: on the brace-delimited payload with `speed` followed by `:`, a
blank and the numeric token `42.4999999`, `parseSpeedCommand` yields 43, which is not
`round(42.4999999) = 42` clamped to [0,100]: the token is parsed as a `float`, and the
nearest `float` is 42.5. -/
theorem parseSpeedCommand_json_float_rounding :
    parseSpeedCommand "\x7b\"speed\": 42.4999999\x7d".toList = some 43 ∧
    parseSpeedCommand "\x7b\"speed\": 42.4999999\x7d".toList
      ≠ some (constrain (round ((424999999 : ℚ) / 10000000)) 0 100) := by
  have h : parseSpeedCommand "\x7b\"speed\": 42.4999999\x7d".toList = some 43 := by decide
  refine ⟨h, ?_⟩
  rw [h, round_42_4999999]
  decide

/-- C8, amended: for every payload that after trimming starts with `{` and ends with
`}`, and in which the first occurrence of `speed` (or, when `speed` does not occur, of
`percent`) is followed by text without a colon, a `:`, white space and a numeric token
`tok` of digits and `.` (ended by another character), `parseSpeedCommand` succeeds with
`round(f)` clamped to [0,100], where `f` is the `float` that `String::toFloat` makes of
the token; for a token that is a whole number up to 100 the result is that number.
Whenever `speed` occurs it is the key used, wherever `percent` stands. -/
theorem parseSpeedCommand_json (payload key mid ws tok rest : List Char) (idx : Nat)
    (hopen : (trim payload).head? = some '\x7b')
    (hclose : (trim payload).getLast? = some '\x7d')
    (hkey : (indexOfStr "speed".toList (trim payload) = some idx ∧ key = "speed".toList) ∨
      (indexOfStr "speed".toList (trim payload) = none ∧
        indexOfStr "percent".toList (trim payload) = some idx ∧ key = "percent".toList))
    (hshape : (trim payload).drop idx = key ++ mid ++ ':' :: (ws ++ tok ++ rest))
    (hmid : ':' ∉ mid)
    (hws : ∀ c ∈ ws, isspace c = true)
    (htok : ∀ c ∈ tok, (isdigit c || c == '.') = true) (hne : tok ≠ [])
    (hrest : ∀ c, rest.head? = some c → (isdigit c || c == '.') = false) :
    parseSpeedCommand payload = some (constrain (roundToInt (toFloat tok)) 0 100) ∧
    ((∀ c ∈ tok, isdigit c = true) → natOfDigits tok ≤ 100 →
      parseSpeedCommand payload = some (natOfDigits tok : Int)) := by
  have hidx : (indexOfStr "speed".toList (trim payload)).orElse
      (fun _ => indexOfStr "percent".toList (trim payload)) = some idx := by
    rcases hkey with ⟨h, -⟩ | ⟨h1, h2, -⟩
    · rw [h]; rfl
    · rw [h1, h2]; rfl
  have hk : ':' ∉ key := by
    rcases hkey with ⟨-, rfl⟩ | ⟨-, -, rfl⟩ <;> decide
  have hscan := tryParseJsonPercent_scan (trim payload) key mid ws tok rest idx hidx hshape hk
    hmid hws htok hne hrest
  have hmain : parseSpeedCommand payload = some (constrain (roundToInt (toFloat tok)) 0 100) := by
    obtain ⟨t, ht⟩ : ∃ t, trim payload = '\x7b' :: t := by
      cases h : trim payload with
      | nil => rw [h] at hopen; simp at hopen
      | cons x t => rw [h] at hopen; simp at hopen; exact ⟨t, by rw [hopen]⟩
    have hsuf : "\x7d".toList.isSuffixOf (trim payload) = true := by
      obtain ⟨ys, hys⟩ := List.getLast?_eq_some_iff.1 hclose
      rw [hys]
      simp [List.isSuffixOf]
    have hraw : ("RAW:".toList.isPrefixOf (trim payload) ||
        "raw:".toList.isPrefixOf (trim payload)) = false := by
      rw [ht]
      rfl
    have hpre : "\x7b".toList.isPrefixOf (trim payload) = true := by
      rw [ht]
      simp
    unfold parseSpeedCommand
    simp only [hscan, hsuf, hraw, hpre, Bool.false_eq_true, if_false, Bool.and_self, if_true]
  refine ⟨hmain, fun hd hle => ?_⟩
  rw [hmain, toFloat_digits tok hd hne, roundToInt_whole_table _ (by omega)]
  rw [constrain_of_mem _ _ _ (by omega) (by omega)]

/-- C8 amended, witness: `{"speed": 42}` yields 42, and so does
`{"percent": 10, "speed": 42}`, where `percent` stands first. -/
theorem parseSpeedCommand_json_witness :
    parseSpeedCommand "\x7b\"speed\": 42\x7d".toList = some 42 ∧
    parseSpeedCommand "\x7b\"percent\": 10, \"speed\": 42\x7d".toList = some 42 :=
  ⟨((parseSpeedCommand_json "\x7b\"speed\": 42\x7d".toList "speed".toList "\"".toList
      " ".toList "42".toList "\x7d".toList 2 (by decide) (by decide) (Or.inl (by decide))
      (by decide) (by decide) (by decide) (by decide) (by decide) (by decide)).2
        (by decide) (by decide)).trans (by decide),
    ((parseSpeedCommand_json "\x7b\"percent\": 10, \"speed\": 42\x7d".toList "speed".toList
      "\"".toList " ".toList "42".toList "\x7d".toList 17 (by decide) (by decide)
      (Or.inl (by decide)) (by decide) (by decide) (by decide) (by decide) (by decide)
      (by decide)).2 (by decide) (by decide)).trans (by decide)⟩

/-- C9, the code on the claim's own examples: `{"speed": "fast"}` and `{"speed": }`
are both accepted, with percent 0 (the empty numeric token converts to 0.0), whereas
`tryParseInt` rejects a missing number; delivered by `mqttCallback` to a fan running at
80 % (duty 818), the first payload stops the fan. -/
theorem parseSpeedCommand_json_missing_number :
    parseSpeedCommand "\x7b\"speed\": \"fast\"\x7d".toList = some 0 ∧
    parseSpeedCommand "\x7b\"speed\": \x7d".toList = some 0 ∧
    tryParseInt "".toList = none ∧ tryParseInt "fast".toList = none ∧
    (handleFanSpeed (Env.online 6000) 80 (State.boot Config.withMqtt)).currentDuty = 818 ∧
    (mqttCallback (Env.online 9000) "\x7b\"speed\": \"fast\"\x7d".toList
      (handleFanSpeed (Env.online 6000) 80 (State.boot Config.withMqtt))).currentDuty = 0 := by
  decide

/-- C10: for every integer `v` in [0, 1023], `parseSpeedCommand` applied to `RAW:`
followed by the decimal digits of `v` succeeds and returns `round(100 * v / 1023)`. -/
theorem parseSpeedCommand_raw (v : Nat) (h : v ≤ 1023) :
    parseSpeedCommand ("RAW:".toList ++ Nat.toDigits 10 v)
      = some (round ((100 * (v : ℚ)) / 1023)) := by
  obtain ⟨ht, hv⟩ := raw_digits_table v (by omega)
  rw [parseSpeedCommand_raw_branch _ _ _ ht hv,
    dutyToPercent_eq_round v (by omega) (by omega)]
  push_cast
  rfl

/-- C10, witness: `RAW:511` yields 50. -/
theorem parseSpeedCommand_raw_witness :
    parseSpeedCommand "RAW:511".toList = some 50 ∧ round ((100 * ((511 : Nat) : ℚ)) / 1023) = 50 :=
  have h := parseSpeedCommand_raw 511 (by decide)
  have e : parseSpeedCommand "RAW:511".toList = some 50 := by decide
  ⟨e, Option.some.inj (h.symm.trans e)⟩

/-- C11: for every payload that after trimming is a bare decimal integer `v` (a
non-empty run of digits): if `0 <= v <= 100`, `parseSpeedCommand` succeeds with
percent `v`; if `v > 100`, it succeeds with `round(100 * min(v, 1023) / 1023)`, the
percent of `v` taken as a raw duty clamped to [0, `DUTY_MAX`]. -/
theorem parseSpeedCommand_bare (payload : List Char) (hne : trim payload ≠ [])
    (hd : ∀ c ∈ trim payload, isdigit c = true) :
    (natOfDigits (trim payload) ≤ 100 →
      parseSpeedCommand payload = some (natOfDigits (trim payload) : Int)) ∧
    (100 < natOfDigits (trim payload) →
      parseSpeedCommand payload =
        some (round ((100 * ((min (natOfDigits (trim payload)) 1023 : Nat) : ℚ)) / 1023))) := by
  obtain ⟨hraw, hbrace⟩ := digits_third_branch (trim payload) hne hd
  have hint : tryParseInt (trim payload) =
      some (constrain (natOfDigits (trim payload)) LONG_MIN LONG_MAX) := by
    unfold tryParseInt
    rw [strtol_digits (trim payload) hne hd]
  rw [parseSpeedCommand_third_branch payload hraw hbrace, hint]
  generalize natOfDigits (trim payload) = v
  simp only []
  constructor
  · intro hv
    have e : constrain (v : Int) LONG_MIN LONG_MAX = v := by
      unfold constrain LONG_MIN LONG_MAX
      split_ifs <;> omega
    rw [e, if_pos (by omega), constrain_of_mem _ _ _ (by omega) (by omega)]
  · intro hv
    have e : constrain (constrain (v : Int) LONG_MIN LONG_MAX) 0 DUTY_MAX
        = ((min v 1023 : Nat) : Int) := by
      rw [DUTY_MAX_eq]
      unfold constrain LONG_MIN LONG_MAX
      split_ifs <;> omega
    have e2 : ¬ constrain (v : Int) LONG_MIN LONG_MAX ≤ 100 := by
      unfold constrain LONG_MIN LONG_MAX
      split_ifs <;> omega
    rw [if_neg e2, e, dutyToPercent_eq_round _ (by omega) (by omega)]
    push_cast
    rfl

/-- C11, witness: `150` yields 15, and `42` (with blanks around it) yields 42. -/
theorem parseSpeedCommand_bare_witness :
    parseSpeedCommand "150".toList = some 15 ∧ parseSpeedCommand " 42 ".toList = some 42 :=
  ⟨((parseSpeedCommand_bare "150".toList (by decide) (by decide)).2 (by decide)).trans
      (congrArg some (by
        have hv : min (natOfDigits (trim "150".toList)) 1023 = 150 := by decide
        have h := round_ratio 15000 1023 (by decide)
        rw [hv]
        norm_num at h ⊢
        exact h)),
    (parseSpeedCommand_bare " 42 ".toList (by decide) (by decide)).1 (by decide)⟩

/-- C12: for every payload that after trimming does not start with `RAW:` or `raw:`,
is not enclosed in `{` ... `}` and is not a decimal integer (an optional sign and a
non-empty run of digits), `parseSpeedCommand` returns failure; and `mqttCallback`,
receiving bytes of which that payload is the C string, leaves the whole state (so the
duty, the percent, the setpoint and the pending soft-start target and deadline)
unchanged. -/
theorem parseSpeedCommand_other (payload : List Char)
    (hRAW : "RAW:".toList.isPrefixOf (trim payload) = false)
    (hraw : "raw:".toList.isPrefixOf (trim payload) = false)
    (hbrace : ¬ ((trim payload).head? = some '\x7b' ∧ (trim payload).getLast? = some '\x7d'))
    (hint : ∀ sign ds : List Char, (sign = [] ∨ sign = ['+'] ∨ sign = ['-']) → ds ≠ [] →
      (∀ c ∈ ds, isdigit c = true) → trim payload ≠ sign ++ ds) :
    parseSpeedCommand payload = none ∧
    (∀ (env : Env) (bytes : List Char) (s : State),
      bytes.takeWhile (fun c => c != '\x00') = payload → mqttCallback env bytes s = s) := by
  have hnone : tryParseInt (trim payload) = none := by
    cases h : tryParseInt (trim payload) with
    | none => rfl
    | some v =>
      obtain ⟨sign, ds, h1, h2, h3, h4⟩ := tryParseInt_shape _ _ h
      rw [trim_dropWhile] at h4
      exact absurd h4 (hint sign ds h1 h2 h3)
  have hp : parseSpeedCommand payload = none := by
    rw [parseSpeedCommand_third_branch payload (by rw [hRAW, hraw]; rfl) hbrace, hnone]
  refine ⟨hp, fun env bytes s hb => ?_⟩
  unfold mqttCallback
  rw [hb, hp]
  split_ifs <;> rfl

/-- C12, witness: `not a number` is rejected, and `mqttCallback` leaves a fan running
at 80 % as it is. -/
theorem parseSpeedCommand_other_witness :
    parseSpeedCommand "not a number".toList = none ∧
    mqttCallback (Env.online 9000) "not a number".toList
      (handleFanSpeed (Env.online 6000) 80 (State.boot Config.withMqtt))
      = handleFanSpeed (Env.online 6000) 80 (State.boot Config.withMqtt) :=
  have h := parseSpeedCommand_other "not a number".toList (by decide) (by decide) (by decide)
    (by
      intro sign ds hs hne hd heq
      have ht : trim "not a number".toList = 'n' :: "ot a number".toList := by decide
      rw [ht] at heq
      rcases hs with rfl | rfl | rfl
      · rw [List.nil_append] at heq
        exact absurd (hd 'n' (by rw [← heq]; exact List.mem_cons_self _ _)) (by decide)
      · exact absurd (List.cons.inj heq).1 (by decide)
      · exact absurd (List.cons.inj heq).1 (by decide))
  ⟨h.1, h.2 (Env.online 9000) "not a number".toList _ (by decide)⟩

/-- C13: of two `ensureMqtt` calls made at times `t1 ≤ t2` less than
`MQTT_RETRY_INTERVAL_MS = 5000` ms apart, the second on any state whose recorded last
attempt is the one the first call left, at most one calls `mqtt.connect` (so two calls
in a row add at most one connection attempt to the trace); and with MQTT enabled and
the client not connected, a call at which the `unsigned long` difference between
`millis()` and the recorded last attempt is below 5000 returns the state unchanged. -/
theorem ensureMqtt_retry_interval (env1 env2 : Env) (s1 s2 : State)
    (ht : env1.now ≤ env2.now) (hlt : env2.now - env1.now < MQTT_RETRY_INTERVAL_MS)
    (hlast : s2.lastMqttAttemptMs = (ensureMqtt env1 s1).lastMqttAttemptMs) :
    MQTT_RETRY_INTERVAL_MS = 5000 ∧
    (connectAttempts (ensureMqtt env1 s1).trace = connectAttempts s1.trace ∨
      connectAttempts (ensureMqtt env2 s2).trace = connectAttempts s2.trace) ∧
    connectAttempts (ensureMqtt env2 (ensureMqtt env1 s1)).trace
      ≤ connectAttempts s1.trace + 1 ∧
    (∀ (env : Env) (s : State), s.cfg.mqtt_enabled = true → s.mqttConnected = false →
      ((millis env : Int) - (s.lastMqttAttemptMs : Int)) % 2 ^ 32 < 5000 →
      ensureMqtt env s = s) := by
  have key : ∀ t : State, t.lastMqttAttemptMs = (ensureMqtt env1 s1).lastMqttAttemptMs →
      connectAttempts (ensureMqtt env1 s1).trace = connectAttempts s1.trace ∨
      (connectAttempts (ensureMqtt env1 s1).trace = connectAttempts s1.trace + 1 ∧
        connectAttempts (ensureMqtt env2 t).trace = connectAttempts t.trace) := by
    intro t hl
    rcases ensureMqtt_attempts env1 s1 with h | ⟨h, hm⟩
    · exact Or.inl h
    · refine Or.inr ⟨h, ensureMqtt_no_attempt env2 t ?_⟩
      rw [hl, hm]
      exact millis_sub_lt env1 env2 ht hlt
  refine ⟨rfl, ?_, ?_, fun env s he hc hthr => ensureMqtt_throttled env s he hc hthr⟩
  · rcases key s2 hlast with h | ⟨-, h⟩
    · exact Or.inl h
    · exact Or.inr h
  · rcases key (ensureMqtt env1 s1) rfl with h | ⟨h1, h2⟩
    · rcases ensureMqtt_attempts env2 (ensureMqtt env1 s1) with g | ⟨g, -⟩
      · rw [g, h]
        exact Nat.le_succ _
      · rw [g, h]
    · rw [h2, h1]

/-- C13, witness: with MQTT enabled, Wi-Fi up and the broker refusing, the call at
6000 ms makes the first attempt, the call at 9000 ms makes none, and the call at
11000 ms makes the second. -/
theorem ensureMqtt_retry_interval_witness :
    connectAttempts (ensureMqtt { Env.online 6000 with connectOk := false }
      (State.boot Config.withMqtt)).trace = 1 ∧
    connectAttempts (ensureMqtt { Env.online 9000 with connectOk := false }
      (ensureMqtt { Env.online 6000 with connectOk := false }
        (State.boot Config.withMqtt))).trace ≤ 1 ∧
    connectAttempts (ensureMqtt { Env.online 11000 with connectOk := false }
      (ensureMqtt { Env.online 9000 with connectOk := false }
        (ensureMqtt { Env.online 6000 with connectOk := false }
          (State.boot Config.withMqtt)))).trace = 2 :=
  ⟨by decide,
    (ensureMqtt_retry_interval { Env.online 6000 with connectOk := false }
      { Env.online 9000 with connectOk := false } (State.boot Config.withMqtt)
      (ensureMqtt { Env.online 6000 with connectOk := false } (State.boot Config.withMqtt))
      (by decide) (by decide) rfl).2.2.1,
    by decide⟩

/-- C14: with MQTT enabled and the client connected, a `publishStateFromDuty(d)` whose
publish fails leaves `mqttStateDirty` set and `pendingDutyActiveHigh = d`.  In any later
state that still holds that flag and that value, with the client disconnected, an
`ensureMqtt` call that gets past the retry interval with Wi-Fi up and whose connect
succeeds puts exactly the events connect, status "online", subscribe and one state
publication on the trace; that publication is of `d`, whatever `currentDuty` is by
then; the dirty flag afterwards is set exactly when that publish failed, so cleared
when it succeeded; and any number of further `ensureMqtt` calls on the connected
client publish nothing. -/
theorem publishStateFromDuty_republished_once (env1 env2 : Env) (d : Int) (s s2 : State)
    (he : s.cfg.mqtt_enabled = true) (hc : s.mqttConnected = true)
    (hfail : env1.publishOk (s.trace.length + 1) = false)
    (he2 : s2.cfg.mqtt_enabled = true) (hc2 : s2.mqttConnected = false)
    (hdirty : s2.mqttStateDirty = (publishStateFromDuty env1 d s).mqttStateDirty)
    (hpend : s2.pendingDutyActiveHigh = (publishStateFromDuty env1 d s).pendingDutyActiveHigh)
    (hthr : ¬ ((millis env2 : Int) - (s2.lastMqttAttemptMs : Int)) % 2 ^ 32
      < (MQTT_RETRY_INTERVAL_MS : Int))
    (hw : env2.wifiStatus = WL_CONNECTED) (hok : env2.connectOk = true) :
    (publishStateFromDuty env1 d s).mqttStateDirty = true ∧
    (publishStateFromDuty env1 d s).pendingDutyActiveHigh = d ∧
    (publishStateFromDuty env1 d s).trace =
      s.trace ++ [Event.stateReport d,
        Event.mqttPublishState d (constrain s.lastUserPercent 0 100) false] ∧
    (ensureMqtt env2 s2).trace =
      s2.trace ++ [Event.mqttConnect, Event.mqttPublishStatus "online".toList,
        Event.mqttSubscribe, Event.stateReport d,
        Event.mqttPublishState d (constrain s2.lastUserPercent 0 100)
          (env2.publishOk (s2.trace.length + 4))] ∧
    statePublishes (ensureMqtt env2 s2).trace = statePublishes s2.trace ++ [d] ∧
    (ensureMqtt env2 s2).mqttStateDirty = !env2.publishOk (s2.trace.length + 4) ∧
    (env2.publishOk (s2.trace.length + 4) = true →
      (ensureMqtt env2 s2).mqttStateDirty = false) ∧
    (∀ envs : List Env,
      statePublishes (envs.foldl (fun st e => ensureMqtt e st) (ensureMqtt env2 s2)).trace
        = statePublishes s2.trace ++ [d] ∧
      (envs.foldl (fun st e => ensureMqtt e st) (ensureMqtt env2 s2)).mqttStateDirty
        = (ensureMqtt env2 s2).mqttStateDirty) := by
  have hpub := publishStateFromDuty_connected env1 d s he hc
  rw [publishStateNow_eq] at hpub
  have hlen : (s.emit (Event.stateReport d)).trace.length = s.trace.length + 1 := by
    show (s.trace ++ [Event.stateReport d]).length = _
    rw [List.length_append, List.length_singleton]
  rw [hlen, hfail] at hpub
  have a1 : (publishStateFromDuty env1 d s).mqttStateDirty = true := by rw [hpub]; rfl
  have a2 : (publishStateFromDuty env1 d s).pendingDutyActiveHigh = d := by rw [hpub]; rfl
  have a3 : (publishStateFromDuty env1 d s).trace = s.trace ++ [Event.stateReport d,
      Event.mqttPublishState d (constrain s.lastUserPercent 0 100) false] := by
    rw [hpub]
    show s.trace ++ [Event.stateReport d] ++ _ = _
    rw [List.append_assoc]
    rfl
  rw [a1] at hdirty
  rw [a2] at hpend
  obtain ⟨b1, b2, b3, -, -⟩ := ensureMqtt_reconnect_fields env2 s2 he2 hc2 hthr hw hok
  simp only [hdirty, hpend, if_true] at b1
  have b4 : statePublishes (ensureMqtt env2 s2).trace = statePublishes s2.trace ++ [d] := by
    rw [b1, statePublishes_reconnect]
  refine ⟨a1, a2, a3, b1, b4, b2, fun h => by rw [b2, h]; rfl, fun envs => ?_⟩
  obtain ⟨c1, c2⟩ := ensureMqtt_connected_foldl envs (ensureMqtt env2 s2) b3
  exact ⟨by rw [c1, b4], c2⟩

/-- C14, witness: a publish of duty 512 fails on a connected client; after the link
is lost and `currentDuty` has moved to 818, the reconnect at 6000 ms publishes 512 once
(the trace then holds the failed publish and this one), the dirty flag is cleared, and
two further calls publish nothing. -/
theorem publishStateFromDuty_republished_once_witness :
    statePublishes (ensureMqtt (Env.online 6000)
      { publishStateFromDuty { Env.online 1000 with publishOk := fun _ => false } 512
          { State.boot Config.withMqtt with mqttConnected := true } with
        mqttConnected := false, currentDuty := 818 }).trace = [512, 512] ∧
    statePublishes ([Env.online 6002, Env.online 6004].foldl (fun st e => ensureMqtt e st)
      (ensureMqtt (Env.online 6000)
        { publishStateFromDuty { Env.online 1000 with publishOk := fun _ => false } 512
            { State.boot Config.withMqtt with mqttConnected := true } with
          mqttConnected := false, currentDuty := 818 })).trace = [512, 512] ∧
    (ensureMqtt (Env.online 6000)
      { publishStateFromDuty { Env.online 1000 with publishOk := fun _ => false } 512
          { State.boot Config.withMqtt with mqttConnected := true } with
        mqttConnected := false, currentDuty := 818 }).mqttStateDirty = false :=
  have h := publishStateFromDuty_republished_once
    { Env.online 1000 with publishOk := fun _ => false } (Env.online 6000) 512
    { State.boot Config.withMqtt with mqttConnected := true }
    { publishStateFromDuty { Env.online 1000 with publishOk := fun _ => false } 512
        { State.boot Config.withMqtt with mqttConnected := true } with
      mqttConnected := false, currentDuty := 818 }
    rfl rfl rfl rfl rfl rfl rfl (by decide) rfl rfl
  ⟨h.2.2.2.2.1.trans (by decide), (h.2.2.2.2.2.2.2 _).1.trans (by decide),
    h.2.2.2.2.2.2.1 rfl⟩

/-- C15, counterexample: with the previous port 8883 and the port field `99999`,
`updateConfigFromParameters` leaves `mqtt_port` at 8883, not at the default 1883 (and
returns `changed = false`, every other field being as before). -/
theorem updateConfigFromParameters_port_kept :
    toInt "99999".toList = 99999 ∧
    (updateConfigFromParameters
      { Params.factory with custom_mqtt_port := some "99999".toList }
      (State.boot { Config.factory with mqtt_port := 8883 })).2.cfg.mqtt_port = 8883 ∧
    (updateConfigFromParameters
      { Params.factory with custom_mqtt_port := some "99999".toList }
      (State.boot { Config.factory with mqtt_port := 8883 })).2.cfg.mqtt_port ≠ 1883 ∧
    (updateConfigFromParameters
      { Params.factory with custom_mqtt_port := some "99999".toList }
      (State.boot { Config.factory with mqtt_port := 8883 })).1 = false := by
  decide

/-- C15, amended: for every current config and every set of portal fields whose port
field is non-empty and does not convert (by `atoi`) to a value in (0, 65535],
`updateConfigFromParameters` leaves `mqtt_port` equal to the previous port; when all
other fields equal the current config, it returns `changed = false` and leaves the
state as it was. -/
theorem updateConfigFromParameters_port_rejected (p : Params) (s : State) (txt : List Char)
    (hport : p.custom_mqtt_port = some txt) (hne : txt ≠ [])
    (hout : ¬ (toInt txt > 0 ∧ toInt txt ≤ 65535)) :
    (mergeParameters p s.cfg).mqtt_port = s.cfg.mqtt_port ∧
    (updateConfigFromParameters p s).2.cfg.mqtt_port = s.cfg.mqtt_port ∧
    ({ mergeParameters p s.cfg with mqtt_port := s.cfg.mqtt_port } = s.cfg →
      updateConfigFromParameters p s = (false, s)) := by
  have hemp : txt.isEmpty = false := by
    cases txt with
    | nil => exact absurd rfl hne
    | cons x t => rfl
  have hm : (mergeParameters p s.cfg).mqtt_port = s.cfg.mqtt_port := by
    unfold mergeParameters
    simp only [hport, hemp, Bool.false_eq_true, if_false, hout]
  refine ⟨hm, ?_, ?_⟩
  · unfold updateConfigFromParameters
    simp only []
    split_ifs <;> first | exact hm | rfl
  · intro hsame
    have hcfg : mergeParameters p s.cfg = s.cfg :=
      calc mergeParameters p s.cfg
          = { mergeParameters p s.cfg with
              mqtt_port := (mergeParameters p s.cfg).mqtt_port } := rfl
        _ = { mergeParameters p s.cfg with mqtt_port := s.cfg.mqtt_port } := by rw [hm]
        _ = s.cfg := hsame
    unfold updateConfigFromParameters
    simp [hcfg]

/-- C15 amended, witness: previous port 8883, port field `99999`, the other fields as
the configuration has them. -/
theorem updateConfigFromParameters_port_rejected_witness :
    updateConfigFromParameters
      { Params.factory with custom_mqtt_port := some "99999".toList }
      (State.boot { Config.factory with mqtt_port := 8883 })
      = (false, State.boot { Config.factory with mqtt_port := 8883 }) :=
  (updateConfigFromParameters_port_rejected
    { Params.factory with custom_mqtt_port := some "99999".toList }
    (State.boot { Config.factory with mqtt_port := 8883 }) "99999".toList rfl (by decide)
    (by decide)).2.2 (by decide)

/-- C16, counterexample: `parseBoolParam` returns true for `tomato`, which after
skipping white space and lowering the case is none of the words 1, true, yes, on. -/
theorem parseBoolParam_tomato :
    parseBoolParam (some "tomato".toList) = true ∧
    ("tomato".toList.dropWhile isspace).map tolower ∉
      ["1".toList, "true".toList, "yes".toList, "on".toList] := by
  decide

/-- C16, amended: `parseBoolParam(value)` returns true exactly when the first
character of `value` after the leading white space is, ignoring case, `1`, `t` or `y`,
or is `o` directly followed by `n`; the rest of the text is not looked at.  So it
returns true for the words 1, true, yes, on in any letter case, and false for 0,
false, no, for a null, empty or all-white-space value, and for every text that does
not begin in one of those ways. -/
theorem parseBoolParam_first_char (value : Option (List Char)) :
    (parseBoolParam value = true ↔
      ∃ v c t, value = some v ∧ v.dropWhile isspace = c :: t ∧
        (tolower c = '1' ∨ tolower c = 't' ∨ tolower c = 'y' ∨
          (tolower c = 'o' ∧ t.head?.map tolower = some 'n'))) ∧
    (∀ v w : List Char, w ∈ ["1".toList, "true".toList, "yes".toList, "on".toList] →
      (v.dropWhile isspace).map tolower = w → parseBoolParam (some v) = true) ∧
    (∀ v w : List Char, w ∈ ["0".toList, "false".toList, "no".toList] →
      (v.dropWhile isspace).map tolower = w → parseBoolParam (some v) = false) ∧
    parseBoolParam none = false ∧
    (∀ v : List Char, (∀ c ∈ v, isspace c = true) → parseBoolParam (some v) = false) :=
  ⟨parseBoolParam_eq_true_iff value, parseBoolParam_true_words, parseBoolParam_false_words,
    rfl, parseBoolParam_blank⟩

/-- C16 amended, witness: ` Yes` and `tomato` give true, `No` and a blank give false. -/
theorem parseBoolParam_first_char_witness :
    parseBoolParam (some " Yes".toList) = true ∧
    parseBoolParam (some "tomato".toList) = true ∧
    parseBoolParam (some "No".toList) = false ∧
    parseBoolParam (some "  ".toList) = false :=
  ⟨(parseBoolParam_first_char none).2.1 " Yes".toList "yes".toList (by decide) (by decide),
    (parseBoolParam_first_char (some "tomato".toList)).1.2
      ⟨"tomato".toList, 't', "omato".toList, rfl, by decide, Or.inr (Or.inl (by decide))⟩,
    (parseBoolParam_first_char none).2.2.1 "No".toList "no".toList (by decide) (by decide),
    (parseBoolParam_first_char none).2.2.2.2 "  ".toList (by decide)⟩

/-- C17: for every duty `d` with `0 <= d <= 1023`, `invertDuty(invertDuty(d)) = d`,
where `invertDuty(d) = 1023 - clamp(d, 0, 1023)` is the active-low value that
`writeDutyActiveLow(d)` hands to the hardware write (while it records `d` itself as
`currentDuty`). -/
theorem invertDuty_invertDuty (d : Int) (h1 : 0 ≤ d) (h2 : d ≤ 1023) :
    invertDuty (invertDuty d) = d ∧
    invertDuty d = 1023 - constrain d 0 1023 ∧
    (∀ s : State,
      (writeDutyActiveLow d s).trace = s.trace ++ [Event.ledcWrite (invertDuty d)] ∧
      (writeDutyActiveLow d s).currentDuty = d) := by
  refine ⟨?_, by rw [invertDuty, DUTY_MAX_eq], fun s => ⟨rfl, rfl⟩⟩
  unfold invertDuty
  rw [DUTY_MAX_eq]
  unfold constrain
  split_ifs <;> omega

/-- C17, witness: duty 256 is written as 767, and 767 inverts back to 256. -/
theorem invertDuty_invertDuty_witness :
    invertDuty 256 = 767 ∧ invertDuty (invertDuty 256) = 256 :=
  ⟨by decide, (invertDuty_invertDuty 256 (by decide) (by decide)).1⟩

/-- C18: the predicate "`0 ≤ currentDuty ≤ 1023`, `currentPercent` is 0 or in [15,100],
`lastUserPercent` is 0 or in [15,100]" is preserved by `handleFanSpeed` for every
integer argument and by the soft-start poll of the loop at every clock reading; and
from any state at all, the `currentPercent` that `handleFanSpeed` leaves is not in
1..14 and not above 100, and the duty it leaves is in 0..1023. -/
theorem handleFanSpeed_preserves_ranges (env : Env) (percent : Int) (s : State)
    (hs : FanInv s) :
    FanInv (handleFanSpeed env percent s) ∧
    FanInv (pollSoftStart env s) ∧
    (∀ (env2 : Env) (p : Int) (t : State),
      ¬ (1 ≤ (handleFanSpeed env2 p t).currentPercent ∧
        (handleFanSpeed env2 p t).currentPercent ≤ 14) ∧
      (handleFanSpeed env2 p t).currentPercent ≤ 100 ∧
      0 ≤ (handleFanSpeed env2 p t).currentPercent ∧
      0 ≤ (handleFanSpeed env2 p t).currentDuty ∧
      (handleFanSpeed env2 p t).currentDuty ≤ 1023) := by
  refine ⟨handleFanSpeed_fanInv env percent s hs, ?_, fun env2 p t => ?_⟩
  · unfold pollSoftStart
    split_ifs
    · exact handleFanSpeed_fanInv env _ _ hs
    · exact hs
  · obtain ⟨r1, r2, -⟩ := handleFanSpeed_ranges env2 p t
    omega

/-- C18, witness: the boot state satisfies the predicate, and so do the state after
`handleFanSpeed(7)` and the state after a poll. -/
theorem handleFanSpeed_preserves_ranges_witness :
    FanInv (State.boot Config.factory) ∧
    FanInv (handleFanSpeed (Env.online 6000) 7 (State.boot Config.factory)) ∧
    FanInv (pollSoftStart (Env.online 6000) (State.boot Config.factory)) :=
  have h0 : FanInv (State.boot Config.factory) := by unfold FanInv; decide
  have h := handleFanSpeed_preserves_ranges (Env.online 6000) 7 (State.boot Config.factory) h0
  ⟨h0, h.1, h.2.1⟩

/-- C19, the code without Wi-Fi: `handleFanSpeed(20)` on the stopped fan at 6000 ms
starts a boost (duty 256, percent 25, pending target 20, deadline 6800).  The loop
iteration at 6900 ms has a pending target above 0, a clock reading past the deadline
and `currentPercent` 25 above the target 20; with Wi-Fi connected it lowers the duty
to `percentToDuty(20) = 205` and clears the target, but with Wi-Fi down it leaves
duty 256 and the target 20 in place, and so does every later iteration without
Wi-Fi. -/
theorem loop_offline_keeps_boost :
    (handleFanSpeed (Env.online 6000) 20 (State.boot Config.factory)).currentDuty = 256 ∧
    (handleFanSpeed (Env.online 6000) 20 (State.boot Config.factory)).currentPercent = 25 ∧
    (handleFanSpeed (Env.online 6000) 20
      (State.boot Config.factory)).pendingPercentAfterStart = 20 ∧
    (handleFanSpeed (Env.online 6000) 20
      (State.boot Config.factory)).pendingPercentApplyMs = 6800 ∧
    (loop (Env.online 6900) Inbound.quiet
      (handleFanSpeed (Env.online 6000) 20 (State.boot Config.factory))).currentDuty = 205 ∧
    (loop (Env.online 6900) Inbound.quiet
      (handleFanSpeed (Env.online 6000) 20
        (State.boot Config.factory))).pendingPercentAfterStart = 0 ∧
    (loop (Env.offline 6900) Inbound.quiet
      (handleFanSpeed (Env.online 6000) 20 (State.boot Config.factory))).currentDuty = 256 ∧
    (loop (Env.offline 6900) Inbound.quiet
      (handleFanSpeed (Env.online 6000) 20
        (State.boot Config.factory))).pendingPercentAfterStart = 20 ∧
    (runLoop [(Env.offline 6900, Inbound.quiet), (Env.offline 60000, Inbound.quiet),
        (Env.offline 600000, Inbound.quiet)]
      (handleFanSpeed (Env.online 6000) 20 (State.boot Config.factory))).currentDuty = 256 := by
  decide

end BambuFilter
